import Mathlib

/-!
Shallow embedding of the ZooKeeper wire-protocol decoder from
`source/extensions/filters/network/zookeeper_proxy/decoder.cc`.

Byte buffers are `List Nat` (one element per byte).  Machine integers are
modelled as `Int` with explicit reduction modulo `2^32` / `2^64` where the
source casts.  The decoder's exception-based control flow is modelled with
`Except`, carrying the mutated state at the point of failure so that
callbacks emitted before an error stay observable, exactly as in the C++
code.  The monotonic clock is an explicit `Nat` parameter.
-/

namespace ZooKeeperProxy

/-- Byte at index `i` of a buffer (0 when out of range; all reads in the
decoder are bounds-checked before the value is used). -/
def byteAt (l : List Nat) (i : Nat) : Nat := l.getD i 0

/-- Big-endian 32-bit read at offset `i`. -/
def be32 (l : List Nat) (i : Nat) : Nat :=
  byteAt l i * 16777216 + byteAt l (i + 1) * 65536 + byteAt l (i + 2) * 256 + byteAt l (i + 3)

/-- Big-endian 64-bit read at offset `i`. -/
def be64 (l : List Nat) (i : Nat) : Nat :=
  be32 l i * 4294967296 + be32 l (i + 4)

/-- Reinterpret an unsigned 32-bit value as a signed `int32_t`. -/
def toSigned32 (v : Nat) : Int :=
  if v < 2147483648 then (v : Int) else (v : Int) - 4294967296

/-- Reinterpret an unsigned 64-bit value as a signed `int64_t`. -/
def toSigned64 (v : Nat) : Int :=
  if v < 9223372036854775808 then (v : Int) else (v : Int) - 18446744073709551616

/-- `static_cast<uint32_t>` of a signed value. -/
def toU32 (n : Int) : Nat := (n % 4294967296).toNat

/-- `static_cast<uint64_t>` style reduction for 64-bit values. -/
def toU64 (n : Int) : Nat := (n % 18446744073709551616).toNat

/-- Big-endian encoding of an `int32_t` as four bytes. -/
def encInt32 (n : Int) : List Nat :=
  [toU32 n / 16777216 % 256, toU32 n / 65536 % 256, toU32 n / 256 % 256, toU32 n % 256]

/-- Big-endian encoding of an `int64_t` as eight bytes. -/
def encInt64 (n : Int) : List Nat :=
  [toU64 n / 72057594037927936 % 256, toU64 n / 281474976710656 % 256,
   toU64 n / 1099511627776 % 256, toU64 n / 4294967296 % 256,
   toU64 n / 16777216 % 256, toU64 n / 65536 % 256, toU64 n / 256 % 256, toU64 n % 256]

/-- Semantic callback events of `DecoderCallbacks`, in emission order.
Strings are byte lists, opcodes/flags keep their on-wire integer value. -/
inductive CB : Type where
  | onConnect (readonly : Bool)
  | onPing
  | onAuthRequest (scheme : List Nat)
  | onGetDataRequest (path : List Nat) (watch : Bool)
  | onCreateRequest (path : List Nat) (flags : Int) (opcode : Int)
  | onSetRequest (path : List Nat)
  | onGetChildrenRequest (path : List Nat) (watch : Bool) (isV2 : Bool)
  | onDeleteRequest (path : List Nat) (version : Int)
  | onExistsRequest (path : List Nat) (watch : Bool)
  | onGetAclRequest (path : List Nat)
  | onSetAclRequest (path : List Nat) (version : Int)
  | onSyncRequest (path : List Nat)
  | onCheckRequest (path : List Nat) (version : Int)
  | onMultiRequest
  | onReconfigRequest
  | onSetWatchesRequest
  | onCheckWatchesRequest (path : List Nat) (watchType : Int)
  | onRemoveWatchesRequest (path : List Nat) (watchType : Int)
  | onGetEphemeralsRequest (path : List Nat)
  | onGetAllChildrenNumberRequest (path : List Nat)
  | onCloseRequest
  | onConnectResponse (protocolVersion : Int) (timeout : Int) (readonly : Bool) (latencyMs : Int)
  | onResponse (opcode : Int) (xid : Int) (zxid : Int) (err : Int) (latencyMs : Int)
  | onWatchEvent (eventType : Int) (clientState : Int) (path : List Nat) (zxid : Int) (err : Int)
  | onRequestBytes (n : Nat)
  | onResponseBytes (n : Nat)
  | onDecodeError
deriving DecidableEq, Repr

/-- Decoder state threaded through a decode pass: the `BufferHelper`'s
internal cursor `cur`, the inflight-request table `reqs` (xid, opcode,
request start time) and the trace `cbs` of callbacks emitted so far. -/
structure St where
  cur : Nat
  reqs : List (Int × Int × Nat)
  cbs : List CB
deriving DecidableEq, Repr

/-- Error-plus-state monad mirroring C++ exceptions: on error the state at
the throw point (callbacks already fired, map already mutated) is kept. -/
def M (α : Type) : Type := St → Except (String × St) (α × St)

instance : Monad M where
  pure a := fun s => .ok (a, s)
  bind m f := fun s =>
    match m s with
    | .ok (a, s') => f a s'
    | .error e => .error e

/-- Throw an `EnvoyException`. -/
def throwErr {α : Type} (msg : String) : M α := fun s => .error (msg, s)

/-- Invoke a callback: append it to the trace. -/
def emit (c : CB) : M Unit := fun s => .ok ((), { s with cbs := s.cbs ++ [c] })

/-- `requests_by_xid_[xid] = {opcode, start_time}` (insert or assign). -/
def mapSet (m : List (Int × Int × Nat)) (k : Int) (op : Int) (t : Nat) :
    List (Int × Int × Nat) :=
  (k, op, t) :: m.filter (fun e => e.1 != k)

/-- `requests_by_xid_.find(xid)`. -/
def mapFind (m : List (Int × Int × Nat)) (k : Int) : Option (Int × Nat) :=
  (m.find? (fun e => e.1 == k)).map (fun e => e.2)

/-- `requests_by_xid_.erase(it)`. -/
def mapErase (m : List (Int × Int × Nat)) (k : Int) : List (Int × Int × Nat) :=
  m.filter (fun e => e.1 != k)

/-- Record a request in the inflight table. -/
def recordReq (k : Int) (op : Int) (t : Nat) : M Unit :=
  fun s => .ok ((), { s with reqs := mapSet s.reqs k op t })

/-- Modelled from the spec: `reset()` of the Byte Cursor (§4.1).  The
`BufferHelper` implementation lives in `decoder.h`, which is not among the
given sources; the cursor is reset before each message is decoded. -/
def hReset : M Unit := fun s => .ok ((), { s with cur := 0 })

/-- Modelled from the spec: the Byte Cursor's internal cursor advance and
ceiling check (§4.1/§4.2).  Every primitive read advances the internal
cursor; per the source comment in `decode` the ceiling is the allowed max
length (`max_packet_bytes`). -/
def ensureMaxLen (cfg : Nat) (size : Nat) : M Unit := fun s =>
  let c := s.cur + size
  if c > cfg then .error ("read beyond max length", { s with cur := c })
  else .ok ((), { s with cur := c })

/-- Modelled from the spec: `peek_int32(buf, &offset) -> i32` (§4.1),
big-endian, advancing the offset by 4; reading past the end of the buffer
fails with a decoding error. -/
def peekInt32 (cfg : Nat) (buf : List Nat) (off : Nat) : M (Int × Nat) := do
  ensureMaxLen cfg 4
  if off + 4 ≤ buf.length then
    pure (toSigned32 (be32 buf off), off + 4)
  else
    throwErr "buffer underflow"

/-- Modelled from the spec: `peek_int64` (§4.1). -/
def peekInt64 (cfg : Nat) (buf : List Nat) (off : Nat) : M (Int × Nat) := do
  ensureMaxLen cfg 8
  if off + 8 ≤ buf.length then
    pure (toSigned64 (be64 buf off), off + 8)
  else
    throwErr "buffer underflow"

/-- Modelled from the spec: `peek_bool` (§3: one byte, non-zero = true). -/
def peekBool (cfg : Nat) (buf : List Nat) (off : Nat) : M (Bool × Nat) := do
  ensureMaxLen cfg 1
  if off + 1 ≤ buf.length then
    pure (byteAt buf off != 0, off + 1)
  else
    throwErr "buffer underflow"

/-- Modelled from the spec: `peek_string` (§4.1): reads int32 `n`; if
`n < 0`, returns the empty string without advancing past a body; else
consumes `n` bytes (byte-for-byte). -/
def peekString (cfg : Nat) (buf : List Nat) (off : Nat) : M (List Nat × Nat) := do
  let (n, off) ← peekInt32 cfg buf off
  if n < 0 then
    pure ([], off)
  else do
    ensureMaxLen cfg n.toNat
    if off + n.toNat ≤ buf.length then
      pure ((buf.drop off).take n.toNat, off + n.toNat)
    else
      throwErr "buffer underflow"

/-- Modelled from the spec: `skip(n, &offset)` (§4.1) advances the offset
(and the internal cursor) by `n`, with no bounds check of its own. -/
def hSkip (n : Nat) (off : Nat) : M Nat := fun s =>
  .ok (off + n, { s with cur := s.cur + n })

/-- Modelled from the spec: numeric values of the `OpCodes` enum referenced
by `decoder.cc`; the enum declaration lives in `decoder.h`, which is not
among the given sources.  Values follow the ZooKeeper wire specification
the spec points to (§4.2). -/
def OpCodes.Connect : Int := 0

/-- Modelled from the spec: ZooKeeper opcode `Create`. -/
def OpCodes.Create : Int := 1

/-- Modelled from the spec: ZooKeeper opcode `Delete`. -/
def OpCodes.Delete : Int := 2

/-- Modelled from the spec: ZooKeeper opcode `Exists`. -/
def OpCodes.Exists : Int := 3

/-- Modelled from the spec: ZooKeeper opcode `GetData`. -/
def OpCodes.GetData : Int := 4

/-- Modelled from the spec: ZooKeeper opcode `SetData`. -/
def OpCodes.SetData : Int := 5

/-- Modelled from the spec: ZooKeeper opcode `GetAcl`. -/
def OpCodes.GetAcl : Int := 6

/-- Modelled from the spec: ZooKeeper opcode `SetAcl`. -/
def OpCodes.SetAcl : Int := 7

/-- Modelled from the spec: ZooKeeper opcode `GetChildren`. -/
def OpCodes.GetChildren : Int := 8

/-- Modelled from the spec: ZooKeeper opcode `Sync`. -/
def OpCodes.Sync : Int := 9

/-- Modelled from the spec: ZooKeeper opcode `Ping`. -/
def OpCodes.Ping : Int := 11

/-- Modelled from the spec: ZooKeeper opcode `GetChildren2`. -/
def OpCodes.GetChildren2 : Int := 12

/-- Modelled from the spec: ZooKeeper opcode `Check`. -/
def OpCodes.Check : Int := 13

/-- Modelled from the spec: ZooKeeper opcode `Multi`. -/
def OpCodes.Multi : Int := 14

/-- Modelled from the spec: ZooKeeper opcode `Create2`. -/
def OpCodes.Create2 : Int := 15

/-- Modelled from the spec: ZooKeeper opcode `Reconfig`. -/
def OpCodes.Reconfig : Int := 16

/-- Modelled from the spec: ZooKeeper opcode `CheckWatches`. -/
def OpCodes.CheckWatches : Int := 17

/-- Modelled from the spec: ZooKeeper opcode `RemoveWatches`. -/
def OpCodes.RemoveWatches : Int := 18

/-- Modelled from the spec: ZooKeeper opcode `CreateContainer`. -/
def OpCodes.CreateContainer : Int := 19

/-- Modelled from the spec: ZooKeeper opcode `CreateTtl`. -/
def OpCodes.CreateTtl : Int := 21

/-- Modelled from the spec: ZooKeeper opcode `Close`. -/
def OpCodes.Close : Int := -11

/-- Modelled from the spec: ZooKeeper opcode `SetAuth`. -/
def OpCodes.SetAuth : Int := 100

/-- Modelled from the spec: ZooKeeper opcode `SetWatches`. -/
def OpCodes.SetWatches : Int := 101

/-- Modelled from the spec: ZooKeeper opcode `GetEphemerals`. -/
def OpCodes.GetEphemerals : Int := 103

/-- Modelled from the spec: ZooKeeper opcode `GetAllChildrenNumber`. -/
def OpCodes.GetAllChildrenNumber : Int := 104

/-- The recognized opcode set of the spec's data model (§3). -/
def recognizedOpcodes : List Int :=
  [OpCodes.Create, OpCodes.Delete, OpCodes.Exists, OpCodes.GetData, OpCodes.SetData,
   OpCodes.GetAcl, OpCodes.SetAcl, OpCodes.GetChildren, OpCodes.Sync, OpCodes.Ping,
   OpCodes.GetChildren2, OpCodes.Check, OpCodes.Multi, OpCodes.Create2, OpCodes.Reconfig,
   OpCodes.CreateContainer, OpCodes.CreateTtl, OpCodes.Close, OpCodes.SetAuth,
   OpCodes.SetWatches, OpCodes.CheckWatches, OpCodes.RemoveWatches, OpCodes.GetEphemerals,
   OpCodes.GetAllChildrenNumber]

/-- `DecoderImpl::ensureMinLength`. -/
def ensureMinLength (len minlen : Int) : M Unit :=
  if len < minlen then throwErr "Packet is too small" else pure ()

/-- `DecoderImpl::ensureMaxLength`: note the `static_cast<uint32_t>` on the
signed length before the comparison with `max_packet_bytes_`. -/
def ensureMaxLength (cfg : Nat) (len : Int) : M Unit :=
  if toU32 len > cfg then throwErr "Packet is too big" else pure ()

/-- `DecoderImpl::skipString`: a negative declared length only logs and
returns, consuming nothing beyond the 4-byte length field. -/
def skipString (cfg : Nat) (buf : List Nat) (off : Nat) : M Nat := do
  let (slen, off) ← peekInt32 cfg buf off
  if slen < 0 then
    pure off
  else
    hSkip slen.toNat off

/-- Loop body of `DecoderImpl::skipStrings` (`count` iterations). -/
def skipStringsLoop (cfg : Nat) (buf : List Nat) : Nat → Nat → M Nat
  | 0, off => pure off
  | n + 1, off => do
    let off ← skipString cfg buf off
    skipStringsLoop cfg buf n off

/-- `DecoderImpl::skipStrings`: a non-positive count skips nothing. -/
def skipStrings (cfg : Nat) (buf : List Nat) (off : Nat) : M Nat := do
  let (count, off) ← peekInt32 cfg buf off
  skipStringsLoop cfg buf count.toNat off

/-- Loop body of `DecoderImpl::skipAcls` (`count` iterations). -/
def skipAclsLoop (cfg : Nat) (buf : List Nat) : Nat → Nat → M Nat
  | 0, off => pure off
  | n + 1, off => do
    let (_, off) ← peekInt32 cfg buf off
    let off ← skipString cfg buf off
    let off ← skipString cfg buf off
    skipAclsLoop cfg buf n off

/-- `DecoderImpl::skipAcls`. -/
def skipAcls (cfg : Nat) (buf : List Nat) (off : Nat) : M Nat := do
  let (count, off) ← peekInt32 cfg buf off
  skipAclsLoop cfg buf count.toNat off

/-- `DecoderImpl::maybeReadBool`: the presence check is against the total
buffer length, not the declared frame length. -/
def maybeReadBool (cfg : Nat) (buf : List Nat) (off : Nat) : M (Bool × Nat) :=
  if buf.length ≥ off + 1 then peekBool cfg buf off
  else pure (false, off)

/-- `DecoderImpl::parseConnect`. -/
def parseConnect (cfg : Nat) (buf : List Nat) (off : Nat) (len : Int) : M Nat := do
  ensureMinLength len 28
  let off := off + 20
  let off ← skipString cfg buf off
  let (readonly, off) ← maybeReadBool cfg buf off
  emit (CB.onConnect readonly)
  pure off

/-- `DecoderImpl::parseAuthRequest`. -/
def parseAuthRequest (cfg : Nat) (buf : List Nat) (off : Nat) (len : Int) : M Nat := do
  ensureMinLength len 20
  let off := off + 8
  let (scheme, off) ← peekString cfg buf off
  let off ← skipString cfg buf off
  emit (CB.onAuthRequest scheme)
  pure off

/-- `DecoderImpl::parseGetDataRequest`. -/
def parseGetDataRequest (cfg : Nat) (buf : List Nat) (off : Nat) (len : Int) : M Nat := do
  ensureMinLength len 13
  let (path, off) ← peekString cfg buf off
  let (watch, off) ← peekBool cfg buf off
  emit (CB.onGetDataRequest path watch)
  pure off

/-- `DecoderImpl::parseCreateRequest`. -/
def parseCreateRequest (cfg : Nat) (buf : List Nat) (off : Nat) (len : Int) (oc : Int) :
    M Nat := do
  ensureMinLength len 20
  let (path, off) ← peekString cfg buf off
  let off ← skipString cfg buf off
  let off ← skipAcls cfg buf off
  let (flags, off) ← peekInt32 cfg buf off
  emit (CB.onCreateRequest path flags oc)
  pure off

/-- `DecoderImpl::parseSetRequest`. -/
def parseSetRequest (cfg : Nat) (buf : List Nat) (off : Nat) (len : Int) : M Nat := do
  ensureMinLength len 20
  let (path, off) ← peekString cfg buf off
  let off ← skipString cfg buf off
  let (_, off) ← peekInt32 cfg buf off
  emit (CB.onSetRequest path)
  pure off

/-- `DecoderImpl::parseGetChildrenRequest`. -/
def parseGetChildrenRequest (cfg : Nat) (buf : List Nat) (off : Nat) (len : Int)
    (two : Bool) : M Nat := do
  ensureMinLength len 13
  let (path, off) ← peekString cfg buf off
  let (watch, off) ← peekBool cfg buf off
  emit (CB.onGetChildrenRequest path watch two)
  pure off

/-- `DecoderImpl::parseDeleteRequest`. -/
def parseDeleteRequest (cfg : Nat) (buf : List Nat) (off : Nat) (len : Int) : M Nat := do
  ensureMinLength len 16
  let (path, off) ← peekString cfg buf off
  let (version, off) ← peekInt32 cfg buf off
  emit (CB.onDeleteRequest path version)
  pure off

/-- `DecoderImpl::parseExistsRequest`. -/
def parseExistsRequest (cfg : Nat) (buf : List Nat) (off : Nat) (len : Int) : M Nat := do
  ensureMinLength len 13
  let (path, off) ← peekString cfg buf off
  let (watch, off) ← peekBool cfg buf off
  emit (CB.onExistsRequest path watch)
  pure off

/-- `DecoderImpl::parseGetAclRequest`. -/
def parseGetAclRequest (cfg : Nat) (buf : List Nat) (off : Nat) (len : Int) : M Nat := do
  ensureMinLength len 12
  let (path, off) ← peekString cfg buf off
  emit (CB.onGetAclRequest path)
  pure off

/-- `DecoderImpl::parseSetAclRequest`. -/
def parseSetAclRequest (cfg : Nat) (buf : List Nat) (off : Nat) (len : Int) : M Nat := do
  ensureMinLength len 16
  let (path, off) ← peekString cfg buf off
  let off ← skipAcls cfg buf off
  let (version, off) ← peekInt32 cfg buf off
  emit (CB.onSetAclRequest path version)
  pure off

/-- `DecoderImpl::pathOnlyRequest`. -/
def pathOnlyRequest (cfg : Nat) (buf : List Nat) (off : Nat) (len : Int) :
    M (List Nat × Nat) := do
  ensureMinLength len 12
  peekString cfg buf off

/-- `DecoderImpl::parseCheckRequest`. -/
def parseCheckRequest (cfg : Nat) (buf : List Nat) (off : Nat) (len : Int) : M Nat := do
  ensureMinLength len 8
  let (path, off) ← peekString cfg buf off
  let (version, off) ← peekInt32 cfg buf off
  emit (CB.onCheckRequest path version)
  pure off

/-- The `while (true)` loop of `DecoderImpl::parseMultiRequest`, with fuel.
Each iteration advances the internal cursor by at least 9, and the cursor
ceiling is `cfg`, so `cfg + 1` iterations always suffice. -/
def multiLoop (cfg : Nat) (buf : List Nat) (len : Int) : Nat → Nat → M Nat
  | 0, off => pure off
  | fuel + 1, off => do
    let (oc, off) ← peekInt32 cfg buf off
    let (done, off) ← peekBool cfg buf off
    let (_, off) ← peekInt32 cfg buf off
    if done then
      pure off
    else do
      let off ←
        if oc = OpCodes.Create then parseCreateRequest cfg buf off len OpCodes.Create
        else if oc = OpCodes.SetData then parseSetRequest cfg buf off len
        else if oc = OpCodes.Check then parseCheckRequest cfg buf off len
        else throwErr "Unknown opcode within a transaction"
      multiLoop cfg buf len fuel off

/-- `DecoderImpl::parseMultiRequest`. -/
def parseMultiRequest (cfg : Nat) (buf : List Nat) (off : Nat) (len : Int) : M Nat := do
  ensureMinLength len 17
  let off ← multiLoop cfg buf len (cfg + 1) off
  emit CB.onMultiRequest
  pure off

/-- `DecoderImpl::parseReconfigRequest`. -/
def parseReconfigRequest (cfg : Nat) (buf : List Nat) (off : Nat) (len : Int) : M Nat := do
  ensureMinLength len 28
  let off ← skipString cfg buf off
  let off ← skipString cfg buf off
  let off ← skipString cfg buf off
  let (_, off) ← peekInt64 cfg buf off
  emit CB.onReconfigRequest
  pure off

/-- `DecoderImpl::parseSetWatchesRequest`. -/
def parseSetWatchesRequest (cfg : Nat) (buf : List Nat) (off : Nat) (len : Int) : M Nat := do
  ensureMinLength len 20
  let (_, off) ← peekInt64 cfg buf off
  let off ← skipStrings cfg buf off
  let off ← skipStrings cfg buf off
  let off ← skipStrings cfg buf off
  emit CB.onSetWatchesRequest
  pure off

/-- `DecoderImpl::parseXWatchesRequest`. -/
def parseXWatchesRequest (cfg : Nat) (buf : List Nat) (off : Nat) (len : Int) (oc : Int) :
    M Nat := do
  ensureMinLength len 16
  let (path, off) ← peekString cfg buf off
  let (watchType, off) ← peekInt32 cfg buf off
  if oc = OpCodes.CheckWatches then
    emit (CB.onCheckWatchesRequest path watchType)
  else
    emit (CB.onRemoveWatchesRequest path watchType)
  pure off

/-- `DecoderImpl::parseConnectResponse`: the first int32 of the body after
the xid is read and emitted as `timeout`; the protocol version is reported
as the literal 0. -/
def parseConnectResponse (cfg : Nat) (buf : List Nat) (off : Nat) (len : Int)
    (latency : Int) : M Nat := do
  ensureMinLength len 20
  let (timeout, off) ← peekInt32 cfg buf off
  let off := off + 8
  let off ← skipString cfg buf off
  let (readonly, off) ← maybeReadBool cfg buf off
  emit (CB.onConnectResponse 0 timeout readonly latency)
  pure off

/-- `DecoderImpl::parseWatchEvent`. -/
def parseWatchEvent (cfg : Nat) (buf : List Nat) (off : Nat) (len : Int)
    (zxid : Int) (err : Int) : M Nat := do
  ensureMinLength len 28
  let (eventType, off) ← peekInt32 cfg buf off
  let (clientState, off) ← peekInt32 cfg buf off
  let (path, off) ← peekString cfg buf off
  emit (CB.onWatchEvent eventType clientState path zxid err)
  pure off

/-- `DecoderImpl::decodeOnData`: request-direction decoding of one framed
message starting at `off`, returning the offset past the consumed bytes.
`t` is the monotonic clock reading taken for this message. -/
def decodeOnData (cfg : Nat) (buf : List Nat) (off : Nat) (t : Nat) : M Nat := do
  let (len, off) ← peekInt32 cfg buf off
  ensureMinLength len 8
  ensureMaxLength cfg len
  let (xid, off) ← peekInt32 cfg buf off
  if xid = 0 then do
    let off ← parseConnect cfg buf off len
    recordReq 0 OpCodes.Connect t
    pure off
  else if xid = -2 then do
    let off := off + 4
    emit CB.onPing
    recordReq (-2) OpCodes.Ping t
    pure off
  else if xid = -4 then do
    let off ← parseAuthRequest cfg buf off len
    recordReq (-4) OpCodes.SetAuth t
    pure off
  else if xid = -8 then do
    let off := off + 4
    let off ← parseSetWatchesRequest cfg buf off len
    recordReq (-8) OpCodes.SetWatches t
    pure off
  else do
    let (oc, off) ← peekInt32 cfg buf off
    let off ←
      if oc = OpCodes.GetData then parseGetDataRequest cfg buf off len
      else if oc = OpCodes.Create ∨ oc = OpCodes.Create2 ∨ oc = OpCodes.CreateContainer ∨
          oc = OpCodes.CreateTtl then
        parseCreateRequest cfg buf off len oc
      else if oc = OpCodes.SetData then parseSetRequest cfg buf off len
      else if oc = OpCodes.GetChildren then parseGetChildrenRequest cfg buf off len false
      else if oc = OpCodes.GetChildren2 then parseGetChildrenRequest cfg buf off len true
      else if oc = OpCodes.Delete then parseDeleteRequest cfg buf off len
      else if oc = OpCodes.Exists then parseExistsRequest cfg buf off len
      else if oc = OpCodes.GetAcl then parseGetAclRequest cfg buf off len
      else if oc = OpCodes.SetAcl then parseSetAclRequest cfg buf off len
      else if oc = OpCodes.Sync then do
        let (path, off) ← pathOnlyRequest cfg buf off len
        emit (CB.onSyncRequest path)
        pure off
      else if oc = OpCodes.Check then parseCheckRequest cfg buf off len
      else if oc = OpCodes.Multi then parseMultiRequest cfg buf off len
      else if oc = OpCodes.Reconfig then parseReconfigRequest cfg buf off len
      else if oc = OpCodes.SetWatches then parseSetWatchesRequest cfg buf off len
      else if oc = OpCodes.CheckWatches then
        parseXWatchesRequest cfg buf off len OpCodes.CheckWatches
      else if oc = OpCodes.RemoveWatches then
        parseXWatchesRequest cfg buf off len OpCodes.RemoveWatches
      else if oc = OpCodes.GetEphemerals then do
        let (path, off) ← pathOnlyRequest cfg buf off len
        emit (CB.onGetEphemeralsRequest path)
        pure off
      else if oc = OpCodes.GetAllChildrenNumber then do
        let (path, off) ← pathOnlyRequest cfg buf off len
        emit (CB.onGetAllChildrenNumberRequest path)
        pure off
      else if oc = OpCodes.Close then do
        emit CB.onCloseRequest
        pure off
      else throwErr "Unknown opcode"
    recordReq xid oc t
    pure off

/-- `DecoderImpl::decodeOnWrite`: response-direction decoding of one framed
message starting at `off`.  `t` is the monotonic clock reading used for the
latency computation. -/
def decodeOnWrite (cfg : Nat) (buf : List Nat) (off : Nat) (t : Nat) : M Nat := do
  let (len, off) ← peekInt32 cfg buf off
  ensureMinLength len 16
  ensureMaxLength cfg len
  let (xid, off) ← peekInt32 cfg buf off
  if xid = -1 then do
    let (zxid, off) ← peekInt64 cfg buf off
    let (err, off) ← peekInt32 cfg buf off
    parseWatchEvent cfg buf off len zxid err
  else do
    let info ← fun s =>
      match mapFind s.reqs xid with
      | none => .error ("xid not found", s)
      | some (op, t0) => .ok ((op, ((t : Int) - (t0 : Int))), { s with reqs := mapErase s.reqs xid })
    if xid = 0 then
      parseConnectResponse cfg buf off len info.2
    else do
      let (zxid, off) ← peekInt64 cfg buf off
      let (err, off) ← peekInt32 cfg buf off
      if xid = -2 then do
        emit (CB.onResponse OpCodes.Ping xid zxid err info.2)
        pure off
      else if xid = -4 then do
        emit (CB.onResponse OpCodes.SetAuth xid zxid err info.2)
        pure off
      else if xid = -8 then do
        emit (CB.onResponse OpCodes.SetWatches xid zxid err info.2)
        pure off
      else do
        emit (CB.onResponse info.1 xid zxid err info.2)
        pure (off + (len.toNat - 16))

/-- The two decode directions (`DecodeType`). -/
inductive DecodeType : Type where
  | READ
  | WRITE
deriving DecidableEq, Repr

/-- The `while (offset < data.length())` loop of `DecoderImpl::decode`,
with fuel.  Each successful iteration advances the offset by at least 8,
so `data.length + 1` iterations always suffice. -/
def decodeLoop (cfg : Nat) (buf : List Nat) (dt : DecodeType) (t : Nat) :
    Nat → Nat → M Unit
  | 0, _ => pure ()
  | fuel + 1, off =>
    if off < buf.length then do
      hReset
      let off' ←
        match dt with
        | .READ => decodeOnData cfg buf off t
        | .WRITE => decodeOnWrite cfg buf off t
      match dt with
      | .READ => emit (CB.onRequestBytes (off' - off))
      | .WRITE => emit (CB.onResponseBytes (off' - off))
      decodeLoop cfg buf dt t fuel off'
    else pure ()

/-- `DecoderImpl::decode`: run the message loop from offset 0, catching any
decoding exception and reporting it through `onDecodeError`. -/
def decodeRun (cfg : Nat) (buf : List Nat) (dt : DecodeType) (t : Nat) (s : St) : St :=
  match decodeLoop cfg buf dt t (buf.length + 1) 0 s with
  | .ok (_, s') => s'
  | .error (_, s') => { s' with cbs := s'.cbs ++ [CB.onDecodeError] }

/-- The pre-scan loop of `DecoderImpl::decodeAndBufferHelper`, with fuel:
peek each packet length, enforce the per-direction minimum and the
configured maximum, and advance past the declared frame.  Returns the final
offset, the last length read and the `has_full_packets` flag. -/
def preScanLoop (cfg : Nat) (buf : List Nat) (minLen : Int) :
    Nat → Nat → Nat → Bool → M (Nat × Nat × Bool)
  | 0, off, lastLen, hasFull => pure (off, lastLen, hasFull)
  | fuel + 1, off, lastLen, hasFull =>
    if off < buf.length then do
      let (len, off) ← peekInt32 cfg buf off
      ensureMinLength len minLen
      ensureMaxLength cfg len
      let off := off + len.toNat
      preScanLoop cfg buf minLen fuel off len.toNat (hasFull || decide (off ≤ buf.length))
    else pure (off, lastLen, hasFull)

/-- `DecoderImpl::decodeAndBufferHelper`: pre-scan the buffer, then either
decode everything (exact fit), decode the full-packet prefix and hand the
trailing partial packet back for buffering, or buffer the whole data.
Returns the bytes appended to the ZooKeeper filter buffer. -/
def decodeAndBufferHelper (cfg : Nat) (buf : List Nat) (dt : DecodeType) (t : Nat)
    (s : St) : List Nat × St :=
  let minLen : Int := if dt = .READ then 8 else 16
  match preScanLoop cfg buf minLen (buf.length + 1) 0 0 false s with
  | .error (_, s') => ([], { s' with cbs := s'.cbs ++ [CB.onDecodeError] })
  | .ok ((off, lastLen, hasFull), s') =>
    if off = buf.length then
      ([], decodeRun cfg buf dt t s')
    else if hasFull then
      let cut := off - (4 + lastLen)
      (buf.drop cut, decodeRun cfg (buf.take cut) dt t s')
    else
      (buf, s')

/-- `DecoderImpl::decodeAndBuffer`: if the direction's ZooKeeper filter
buffer holds residual bytes, prepend them (draining the filter buffer)
before decoding.  Returns the new residual contents. -/
def decodeAndBuffer (cfg : Nat) (chunk : List Nat) (dt : DecodeType) (t : Nat)
    (resid : List Nat) (s : St) : List Nat × St :=
  if resid.length = 0 then
    decodeAndBufferHelper cfg chunk dt t s
  else
    decodeAndBufferHelper cfg (resid ++ chunk) dt t s

/-- Whole-filter state: decoder state plus the two per-direction residual
buffers (`zk_filter_read_buffer_` / `zk_filter_write_buffer_`). -/
structure ZkSt where
  st : St
  readResid : List Nat
  writeResid : List Nat
deriving DecidableEq, Repr

/-- `DecoderImpl::onData`: feed one request-direction chunk. -/
def onDataChunk (cfg : Nat) (t : Nat) (chunk : List Nat) (z : ZkSt) : ZkSt :=
  let (r, s) := decodeAndBuffer cfg chunk .READ t z.readResid z.st
  { z with st := s, readResid := r }

/-- `DecoderImpl::onWrite`: feed one response-direction chunk. -/
def onWriteChunk (cfg : Nat) (t : Nat) (chunk : List Nat) (z : ZkSt) : ZkSt :=
  let (r, s) := decodeAndBuffer cfg chunk .WRITE t z.writeResid z.st
  { z with st := s, writeResid := r }

/-- Feed a sequence of request-direction chunks. -/
def feedRead (cfg : Nat) (t : Nat) (chunks : List (List Nat)) (z : ZkSt) : ZkSt :=
  chunks.foldl (fun z c => onDataChunk cfg t c z) z

/-- A fresh filter state over a given inflight table and callback trace. -/
def zkInit (reqs : List (Int × Int × Nat)) (cbs : List CB) : ZkSt :=
  { st := { cur := 0, reqs := reqs, cbs := cbs }, readResid := [], writeResid := [] }

/-- Offset returned by a successful single-message decode. -/
def offOf (r : Except (String × St) (Nat × St)) : Option Nat :=
  match r with
  | .ok (o, _) => some o
  | .error _ => none

/-- Error message of a failed single-message decode. -/
def errMsgOf {α : Type} (r : Except (String × St) (α × St)) : Option String :=
  match r with
  | .ok _ => none
  | .error (msg, _) => some msg

/-- Inflight table in the state a decode ends in, successful or not. -/
def reqsOf {α : Type} (r : Except (String × St) (α × St)) : List (Int × Int × Nat) :=
  match r with
  | .ok (_, s) => s.reqs
  | .error (_, s) => s.reqs

/-- A decode step that leaves the inflight-request table untouched,
whether it succeeds or fails. -/
def PreservesReqs {α : Type} (m : M α) : Prop :=
  ∀ s, reqsOf (m s) = s.reqs

/-- A framed request message together with its declared length and the
callbacks its decode emits. -/
structure GMsg where
  L : Nat
  bytes : List Nat
  cs : List CB
deriving DecidableEq, Repr

/-- Byte stream of a sequence of framed messages. -/
def msgsBytes : List GMsg → List Nat
  | [] => []
  | g :: t => g.bytes ++ msgsBytes t

/-- Callback trace of decoding a sequence of framed request messages: each
message's own callbacks followed by its `onRequestBytes` accounting
callback. -/
def cbsOf : List GMsg → List CB
  | [] => []
  | g :: t => (g.cs ++ [CB.onRequestBytes (g.L + 4)]) ++ cbsOf t

/-- Last declared frame length seen while pre-scanning `msgs` (with default
`d` when the list is empty), mirroring the `len` loop variable of
`decodeAndBufferHelper`. -/
def lastL : List GMsg → Nat → Nat
  | [], d => d
  | g :: t, _ => lastL t g.L

/-- A well-formed framed request message: the frame structure is coherent
(`L + 4` bytes, in-bounds declared length matching the length prefix) and
`decodeOnData`, run anywhere inside a larger buffer from a reset cursor,
succeeds, consumes exactly `L + 4` bytes, emits exactly `cs`, and leaves
the internal cursor at most `L + 4`. -/
def GoodReqMsg (cfg : Nat) (g : GMsg) : Prop :=
  g.bytes.length = g.L + 4 ∧ 8 ≤ g.L ∧ g.L ≤ cfg ∧ be32 g.bytes 0 = g.L ∧
  ∀ pre suf : List Nat, ∀ t : Nat, ∀ s : St, s.cur = 0 →
    ∃ c2 rq2, c2 ≤ g.L + 4 ∧
      decodeOnData cfg (pre ++ (g.bytes ++ suf)) pre.length t s
        = .ok (pre.length + (g.L + 4), { cur := c2, reqs := rq2, cbs := s.cbs ++ g.cs })

/- Basic unfolding lemmas for the monad. -/

theorem bind_apply {α β : Type} (m : M α) (f : α → M β) (s : St) :
    (m >>= f) s = match m s with
      | .ok (a, s') => f a s'
      | .error e => .error e := rfl

theorem pure_apply {α : Type} (a : α) (s : St) : (pure a : M α) s = .ok (a, s) := rfl

/- Reading lemmas for big-endian values in concatenated buffers. -/

theorem byteAt_append_left (a b : List Nat) (i : Nat) (h : i < a.length) :
    byteAt (a ++ b) i = byteAt a i := by
  unfold byteAt
  exact List.getD_append a b 0 i h

theorem byteAt_append_right (a b : List Nat) (i : Nat) :
    byteAt (a ++ b) (a.length + i) = byteAt b i := by
  unfold byteAt
  rw [List.getD_append_right a b 0 (a.length + i) (by omega)]
  congr 1
  omega

theorem be32_append_left (a b : List Nat) (i : Nat) (h : i + 4 ≤ a.length) :
    be32 (a ++ b) i = be32 a i := by
  unfold be32
  rw [byteAt_append_left a b i (by omega), byteAt_append_left a b (i + 1) (by omega),
    byteAt_append_left a b (i + 2) (by omega), byteAt_append_left a b (i + 3) (by omega)]

theorem be32_append_right (a b : List Nat) (i : Nat) :
    be32 (a ++ b) (a.length + i) = be32 b i := by
  unfold be32
  rw [show a.length + i + 1 = a.length + (i + 1) by omega,
    show a.length + i + 2 = a.length + (i + 2) by omega,
    show a.length + i + 3 = a.length + (i + 3) by omega,
    byteAt_append_right, byteAt_append_right, byteAt_append_right, byteAt_append_right]

theorem be64_append_right (a b : List Nat) (i : Nat) :
    be64 (a ++ b) (a.length + i) = be64 b i := by
  unfold be64
  rw [show a.length + i + 4 = a.length + (i + 4) by omega,
    be32_append_right, be32_append_right]

theorem toU32_lt (n : Int) : toU32 n < 4294967296 := by
  simp only [toU32]
  omega

theorem toU64_lt (n : Int) : toU64 n < 18446744073709551616 := by
  simp only [toU64]
  omega

theorem encInt32_length (n : Int) : (encInt32 n).length = 4 := rfl

theorem encInt64_length (n : Int) : (encInt64 n).length = 8 := rfl

theorem be32_encInt32 (n : Int) (r : List Nat) : be32 (encInt32 n ++ r) 0 = toU32 n := by
  have h := toU32_lt n
  simp only [be32, encInt32, byteAt, List.cons_append, List.getD_cons_zero,
    List.getD_cons_succ]
  omega

theorem be64_encInt64 (n : Int) (r : List Nat) : be64 (encInt64 n ++ r) 0 = toU64 n := by
  have h := toU64_lt n
  simp only [be64, be32, encInt64, byteAt, List.cons_append, List.getD_cons_zero,
    List.getD_cons_succ]
  omega

theorem toSigned32_toU32 (n : Int) (h1 : -2147483648 ≤ n) (h2 : n < 2147483648) :
    toSigned32 (toU32 n) = n := by
  simp only [toSigned32, toU32]
  split <;> omega

theorem toSigned64_toU64 (n : Int) (h1 : -9223372036854775808 ≤ n)
    (h2 : n < 9223372036854775808) : toSigned64 (toU64 n) = n := by
  simp only [toSigned64, toU64]
  split <;> omega

theorem toU32_eq_toNat (n : Int) (h1 : 0 ≤ n) (h2 : n < 4294967296) :
    toU32 n = n.toNat := by
  simp only [toU32]
  omega

/- Characterization lemmas for the primitive operations. -/

theorem throwErr_apply {α : Type} (msg : String) (s : St) :
    (throwErr msg : M α) s = .error (msg, s) := rfl

theorem emit_apply (c : CB) (s : St) :
    emit c s = .ok ((), { s with cbs := s.cbs ++ [c] }) := rfl

theorem hReset_apply (s : St) : hReset s = .ok ((), { s with cur := 0 }) := rfl

theorem recordReq_apply (k op : Int) (t : Nat) (s : St) :
    recordReq k op t s = .ok ((), { s with reqs := mapSet s.reqs k op t }) := rfl

theorem hSkip_apply (n off : Nat) (s : St) :
    hSkip n off s = .ok (off + n, { s with cur := s.cur + n }) := rfl

theorem ensureMaxLen_ok (cfg n : Nat) (s : St) (h : s.cur + n ≤ cfg) :
    ensureMaxLen cfg n s = .ok ((), { s with cur := s.cur + n }) := by
  simp [ensureMaxLen, Nat.not_lt.2 h]

theorem ensureMinLength_ok (len minlen : Int) (s : St) (h : minlen ≤ len) :
    ensureMinLength len minlen s = .ok ((), s) := by
  simp [ensureMinLength, Int.not_lt.2 h, pure_apply]

theorem ensureMinLength_err (len minlen : Int) (s : St) (h : len < minlen) :
    ensureMinLength len minlen s = .error ("Packet is too small", s) := by
  simp [ensureMinLength, h, throwErr_apply]

theorem ensureMaxLength_ok (cfg : Nat) (len : Int) (s : St) (h : toU32 len ≤ cfg) :
    ensureMaxLength cfg len s = .ok ((), s) := by
  simp [ensureMaxLength, Nat.not_lt.2 h, pure_apply]

theorem ensureMaxLength_err (cfg : Nat) (len : Int) (s : St) (h : cfg < toU32 len) :
    ensureMaxLength cfg len s = .error ("Packet is too big", s) := by
  simp [ensureMaxLength, h, throwErr_apply]

theorem peekInt32_ok (cfg : Nat) (buf : List Nat) (off : Nat) (s : St)
    (hc : s.cur + 4 ≤ cfg) (hb : off + 4 ≤ buf.length) :
    peekInt32 cfg buf off s
      = .ok ((toSigned32 (be32 buf off), off + 4), { s with cur := s.cur + 4 }) := by
  simp [peekInt32, bind_apply, ensureMaxLen_ok cfg 4 s hc, hb, pure_apply]

theorem peekInt32_underflow (cfg : Nat) (buf : List Nat) (off : Nat) (s : St)
    (hc : s.cur + 4 ≤ cfg) (hb : buf.length < off + 4) :
    peekInt32 cfg buf off s = .error ("buffer underflow", { s with cur := s.cur + 4 }) := by
  simp [peekInt32, bind_apply, ensureMaxLen_ok cfg 4 s hc, Nat.not_le.2 hb, throwErr_apply]

theorem peekInt64_ok (cfg : Nat) (buf : List Nat) (off : Nat) (s : St)
    (hc : s.cur + 8 ≤ cfg) (hb : off + 8 ≤ buf.length) :
    peekInt64 cfg buf off s
      = .ok ((toSigned64 (be64 buf off), off + 8), { s with cur := s.cur + 8 }) := by
  simp [peekInt64, bind_apply, ensureMaxLen_ok cfg 8 s hc, hb, pure_apply]

theorem peekBool_ok (cfg : Nat) (buf : List Nat) (off : Nat) (s : St)
    (hc : s.cur + 1 ≤ cfg) (hb : off + 1 ≤ buf.length) :
    peekBool cfg buf off s
      = .ok ((byteAt buf off != 0, off + 1), { s with cur := s.cur + 1 }) := by
  simp [peekBool, bind_apply, ensureMaxLen_ok cfg 1 s hc, hb, pure_apply]

theorem skipString_neg (cfg : Nat) (buf : List Nat) (off : Nat) (s : St)
    (hc : s.cur + 4 ≤ cfg) (hb : off + 4 ≤ buf.length)
    (hn : toSigned32 (be32 buf off) < 0) :
    skipString cfg buf off s = .ok (off + 4, { s with cur := s.cur + 4 }) := by
  simp [skipString, bind_apply, peekInt32_ok cfg buf off s hc hb, hn, pure_apply]

theorem skipString_nonneg (cfg : Nat) (buf : List Nat) (off : Nat) (s : St)
    (hc : s.cur + 4 ≤ cfg) (hb : off + 4 ≤ buf.length)
    (hn : 0 ≤ toSigned32 (be32 buf off)) :
    skipString cfg buf off s
      = .ok (off + 4 + (toSigned32 (be32 buf off)).toNat,
             { s with cur := s.cur + 4 + (toSigned32 (be32 buf off)).toNat }) := by
  simp [skipString, bind_apply, peekInt32_ok cfg buf off s hc hb, Int.not_lt.2 hn,
    hSkip_apply, pure_apply]

theorem peekString_neg (cfg : Nat) (buf : List Nat) (off : Nat) (s : St)
    (hc : s.cur + 4 ≤ cfg) (hb : off + 4 ≤ buf.length)
    (hn : toSigned32 (be32 buf off) < 0) :
    peekString cfg buf off s = .ok (([], off + 4), { s with cur := s.cur + 4 }) := by
  simp [peekString, bind_apply, peekInt32_ok cfg buf off s hc hb, hn, pure_apply]

theorem peekString_nonneg (cfg : Nat) (buf : List Nat) (off : Nat) (s : St)
    (hc : s.cur + 4 + (toSigned32 (be32 buf off)).toNat ≤ cfg)
    (hb : off + 4 + (toSigned32 (be32 buf off)).toNat ≤ buf.length)
    (hn : 0 ≤ toSigned32 (be32 buf off)) :
    peekString cfg buf off s
      = .ok (((buf.drop (off + 4)).take (toSigned32 (be32 buf off)).toNat,
              off + 4 + (toSigned32 (be32 buf off)).toNat),
             { s with cur := s.cur + 4 + (toSigned32 (be32 buf off)).toNat }) := by
  have hb4 : off + 4 ≤ buf.length := by omega
  have h2 : ({ s with cur := s.cur + 4 } : St).cur + (toSigned32 (be32 buf off)).toNat ≤ cfg := by
    simp only []
    omega
  simp [peekString, bind_apply, peekInt32_ok cfg buf off s (by omega) hb4,
    Int.not_lt.2 hn, ensureMaxLen_ok cfg (toSigned32 (be32 buf off)).toNat
      { s with cur := s.cur + 4 } h2, hb, pure_apply]

theorem preservesReqs_pure {α : Type} (a : α) : PreservesReqs (pure a : M α) :=
  fun _ => rfl

theorem preservesReqs_throwErr {α : Type} (msg : String) :
    PreservesReqs (throwErr msg : M α) :=
  fun _ => rfl

theorem preservesReqs_emit (c : CB) : PreservesReqs (emit c) :=
  fun _ => rfl

theorem preservesReqs_hSkip (n off : Nat) : PreservesReqs (hSkip n off) :=
  fun _ => rfl

theorem preservesReqs_ensureMaxLen (cfg n : Nat) : PreservesReqs (ensureMaxLen cfg n) := by
  intro s
  simp only [ensureMaxLen]
  split <;> rfl

theorem preservesReqs_ensureMinLength (len minlen : Int) :
    PreservesReqs (ensureMinLength len minlen) := by
  intro s
  simp only [ensureMinLength]
  split <;> rfl

theorem preservesReqs_ensureMaxLength (cfg : Nat) (len : Int) :
    PreservesReqs (ensureMaxLength cfg len) := by
  intro s
  simp only [ensureMaxLength]
  split <;> rfl

theorem preservesReqs_bind {α β : Type} (m : M α) (f : α → M β)
    (hm : PreservesReqs m) (hf : ∀ a, PreservesReqs (f a)) :
    PreservesReqs (m >>= f) := by
  intro s
  rw [bind_apply]
  have := hm s
  cases hms : m s with
  | ok v =>
    rw [hms] at this
    have := hf v.1 v.2
    simp only [reqsOf] at this ⊢
    cases hfv : f v.1 v.2 <;> rw [hfv] at this <;> simp_all [reqsOf]
  | error e =>
    rw [hms] at this
    simp_all [reqsOf]

theorem preservesReqs_peekInt32 (cfg : Nat) (buf : List Nat) (off : Nat) :
    PreservesReqs (peekInt32 cfg buf off) := by
  unfold peekInt32
  apply preservesReqs_bind _ _ (preservesReqs_ensureMaxLen cfg 4)
  intro a
  split
  · exact preservesReqs_pure _
  · exact preservesReqs_throwErr _

theorem preservesReqs_peekInt64 (cfg : Nat) (buf : List Nat) (off : Nat) :
    PreservesReqs (peekInt64 cfg buf off) := by
  unfold peekInt64
  apply preservesReqs_bind _ _ (preservesReqs_ensureMaxLen cfg 8)
  intro a
  split
  · exact preservesReqs_pure _
  · exact preservesReqs_throwErr _

theorem preservesReqs_peekBool (cfg : Nat) (buf : List Nat) (off : Nat) :
    PreservesReqs (peekBool cfg buf off) := by
  unfold peekBool
  apply preservesReqs_bind _ _ (preservesReqs_ensureMaxLen cfg 1)
  intro a
  split
  · exact preservesReqs_pure _
  · exact preservesReqs_throwErr _

theorem preservesReqs_peekString (cfg : Nat) (buf : List Nat) (off : Nat) :
    PreservesReqs (peekString cfg buf off) := by
  unfold peekString
  apply preservesReqs_bind _ _ (preservesReqs_peekInt32 cfg buf off)
  rintro ⟨n, o⟩
  dsimp only []
  split
  · exact preservesReqs_pure _
  · apply preservesReqs_bind _ _ (preservesReqs_ensureMaxLen cfg n.toNat)
    intro a
    split
    · exact preservesReqs_pure _
    · exact preservesReqs_throwErr _

theorem preservesReqs_parseWatchEvent (cfg : Nat) (buf : List Nat) (off : Nat)
    (len zxid err : Int) : PreservesReqs (parseWatchEvent cfg buf off len zxid err) := by
  unfold parseWatchEvent
  apply preservesReqs_bind _ _ (preservesReqs_ensureMinLength len 28)
  intro a
  apply preservesReqs_bind _ _ (preservesReqs_peekInt32 cfg buf off)
  rintro ⟨et, o⟩
  apply preservesReqs_bind _ _ (preservesReqs_peekInt32 cfg buf o)
  rintro ⟨cs, o2⟩
  apply preservesReqs_bind _ _ (preservesReqs_peekString cfg buf o2)
  rintro ⟨p, o3⟩
  apply preservesReqs_bind _ _ (preservesReqs_emit _)
  intro a2
  exact preservesReqs_pure _

/-- C5: the configured `max_packet_bytes` bound on the declared frame length
`L` is strict at the boundary: `ensureMaxLength` accepts a frame with
`L = max_packet_bytes` and rejects `L = max_packet_bytes + 1` with the
"Packet is too big" decoding error. -/
theorem C5_max_packet_boundary (cfg : Nat) (s : St) (h : cfg < 2147483648) :
    ensureMaxLength cfg (cfg : Int) s = .ok ((), s) ∧
    ensureMaxLength cfg ((cfg : Int) + 1) s = .error ("Packet is too big", s) := by
  constructor
  · apply ensureMaxLength_ok
    simp only [toU32]
    omega
  · apply ensureMaxLength_err
    simp only [toU32]
    omega

/-- Witness for C5 at `max_packet_bytes = 1048576` (the filter default). -/
theorem C5_max_packet_boundary_witness :
    (1048576 : Nat) < 2147483648 ∧
    (ensureMaxLength 1048576 (1048576 : Int) { cur := 0, reqs := [], cbs := [] }
        = .ok ((), { cur := 0, reqs := [], cbs := [] }) ∧
      ensureMaxLength 1048576 ((1048576 : Int) + 1) { cur := 0, reqs := [], cbs := [] }
        = .error ("Packet is too big", { cur := 0, reqs := [], cbs := [] })) :=
  ⟨by decide, C5_max_packet_boundary 1048576 { cur := 0, reqs := [], cbs := [] } (by decide)⟩

/-- C7: a negative declared string length is treated as null/empty and no
body bytes are consumed beyond the 4-byte length field: `skipString`
advances the offset only past the length field, and `peek_string` returns
the empty string at the same offset. -/
theorem C7_negative_string_length (cfg : Nat) (buf : List Nat) (off : Nat) (s : St)
    (hc : s.cur + 4 ≤ cfg) (hb : off + 4 ≤ buf.length)
    (hn : toSigned32 (be32 buf off) < 0) :
    skipString cfg buf off s = .ok (off + 4, { s with cur := s.cur + 4 }) ∧
    peekString cfg buf off s = .ok (([], off + 4), { s with cur := s.cur + 4 }) :=
  ⟨skipString_neg cfg buf off s hc hb hn, peekString_neg cfg buf off s hc hb hn⟩

/-- Witness for C7: declared string length -1 (`FF FF FF FF`). -/
theorem C7_negative_string_length_witness :
    ((0 : Nat) + 4 ≤ 1024 ∧ 0 + 4 ≤ [255, 255, 255, 255, 7, 7].length ∧
      toSigned32 (be32 [255, 255, 255, 255, 7, 7] 0) < 0) ∧
    (skipString 1024 [255, 255, 255, 255, 7, 7] 0 { cur := 0, reqs := [], cbs := [] }
        = .ok (4, { cur := 4, reqs := [], cbs := [] }) ∧
      peekString 1024 [255, 255, 255, 255, 7, 7] 0 { cur := 0, reqs := [], cbs := [] }
        = .ok (([], 4), { cur := 4, reqs := [], cbs := [] })) :=
  ⟨by decide,
    C7_negative_string_length 1024 [255, 255, 255, 255, 7, 7] 0
      { cur := 0, reqs := [], cbs := [] } (by decide) (by decide) (by decide)⟩

/-- The server-initiated watch-event branch of `decodeOnWrite` never
touches the inflight-request table. -/
theorem reqsOf_watch_branch (cfg : Nat) (buf : List Nat) (off : Nat) (len : Int) :
    PreservesReqs (do
      let (zxid, off) ← peekInt64 cfg buf off
      let (err, off) ← peekInt32 cfg buf off
      parseWatchEvent cfg buf off len zxid err) := by
  apply preservesReqs_bind _ _ (preservesReqs_peekInt64 cfg buf off)
  rintro ⟨zx, o⟩
  apply preservesReqs_bind _ _ (preservesReqs_peekInt32 cfg buf o)
  rintro ⟨er, o2⟩
  exact preservesReqs_parseWatchEvent cfg buf o2 len zx er

/-- C3: when decoding a response whose xid is not `WatchXid` (-1), a missing
entry in the inflight-request table is the fatal decoding error "xid not
found"; when the xid is `WatchXid`, no lookup occurs and the inflight table
is left unchanged whatever the outcome. -/
theorem C3_missing_xid_fatal_watch_skips_lookup (cfg : Nat) (L x : Int)
    (rest : List Nat) (s : St) (t : Nat)
    (hcfg : cfg < 2147483648) (hcur : s.cur + 8 ≤ cfg)
    (hL1 : 16 ≤ L) (hL2 : L ≤ (cfg : Int))
    (hx1 : x ≠ -1) (hxlo : -2147483648 ≤ x) (hxhi : x < 2147483648)
    (hfind : mapFind s.reqs x = none) :
    decodeOnWrite cfg (encInt32 L ++ encInt32 x ++ rest) 0 t s
      = .error ("xid not found", { s with cur := s.cur + 8 }) ∧
    reqsOf (decodeOnWrite cfg (encInt32 L ++ encInt32 (-1) ++ rest) 0 t s) = s.reqs := by
  have hLu : toU32 L ≤ cfg := by
    rw [toU32_eq_toNat L (by omega) (by omega)]
    omega
  constructor
  · set buf := encInt32 L ++ encInt32 x ++ rest with hbuf
    have hblen : buf.length = 8 + rest.length := by
      simp [hbuf, encInt32]
      omega
    have e0 : toSigned32 (be32 buf 0) = L := by
      rw [hbuf, List.append_assoc, be32_encInt32]
      exact toSigned32_toU32 L (by omega) (by omega)
    have e4 : toSigned32 (be32 buf 4) = x := by
      have h := be32_append_right (encInt32 L) (encInt32 x ++ rest) 0
      rw [encInt32_length] at h
      norm_num at h
      rw [hbuf, List.append_assoc, h, be32_encInt32]
      exact toSigned32_toU32 x hxlo hxhi
    simp only [decodeOnWrite, bind_apply,
      peekInt32_ok cfg buf 0 s (by omega) (by omega), e0]
    simp only [bind_apply, ensureMinLength_ok L 16 _ hL1, pure_apply,
      ensureMaxLength_ok cfg L _ hLu]
    simp only [bind_apply,
      peekInt32_ok cfg buf 4 { s with cur := s.cur + 4 } (by simp; omega) (by omega), e4]
    simp only [if_neg hx1, bind_apply, hfind]
  · set buf := encInt32 L ++ encInt32 (-1 : Int) ++ rest with hbuf
    have hblen : buf.length = 8 + rest.length := by
      simp [hbuf, encInt32]
      omega
    have e0 : toSigned32 (be32 buf 0) = L := by
      rw [hbuf, List.append_assoc, be32_encInt32]
      exact toSigned32_toU32 L (by omega) (by omega)
    have e4 : toSigned32 (be32 buf 4) = -1 := by
      have h := be32_append_right (encInt32 L) (encInt32 (-1 : Int) ++ rest) 0
      rw [encInt32_length] at h
      norm_num at h
      rw [hbuf, List.append_assoc, h, be32_encInt32]
      exact toSigned32_toU32 (-1) (by omega) (by omega)
    simp only [decodeOnWrite, bind_apply,
      peekInt32_ok cfg buf 0 s (by omega) (by omega), e0]
    simp only [bind_apply, ensureMinLength_ok L 16 _ hL1, pure_apply,
      ensureMaxLength_ok cfg L _ hLu]
    simp only [bind_apply,
      peekInt32_ok cfg buf 4 { s with cur := s.cur + 4 } (by simp; omega) (by omega), e4]
    exact reqsOf_watch_branch cfg buf 8 L _

/-- Witness for C3: response with xid 42 against an empty inflight table,
and a watch-event response leaving the table unchanged. -/
theorem C3_missing_xid_fatal_watch_skips_lookup_witness :
    ((42 : Int) ≠ -1 ∧ mapFind [] (42 : Int) = none) ∧
    (decodeOnWrite 1024 (encInt32 16 ++ encInt32 42 ++ []) 0 9 { cur := 0, reqs := [], cbs := [] }
        = .error ("xid not found", { cur := 8, reqs := [], cbs := [] }) ∧
      reqsOf (decodeOnWrite 1024 (encInt32 16 ++ encInt32 (-1) ++ []) 0 9
        { cur := 0, reqs := [], cbs := [] }) = []) :=
  ⟨⟨by decide, rfl⟩,
    C3_missing_xid_fatal_watch_skips_lookup 1024 16 42 [] { cur := 0, reqs := [], cbs := [] } 9
      (by decide) (by decide) (by decide) (by decide) (by decide) (by decide) (by decide) rfl⟩

/-- Erasing an xid from the inflight table makes it unfindable. -/
theorem mapFind_mapErase (m : List (Int × Int × Nat)) (k : Int) :
    mapFind (mapErase m k) k = none := by
  unfold mapFind mapErase
  rw [Option.map_eq_none', List.find?_eq_none]
  intro e he
  have := List.of_mem_filter he
  simpa using this

/-- C4: a response carrying the xid of a recorded data request (a non-watch
xid) emits exactly one `onResponse` whose latency is non-negative, removes
the xid from the inflight table (back to the Absent state), and consumes
the whole `L + 4`-byte frame. -/
theorem C4_response_correlates_and_erases (cfg : Nat) (L x zxid err op : Int)
    (body : List Nat) (s : St) (t0 t : Nat)
    (hcfg : cfg < 2147483648) (hcur : s.cur + 20 ≤ cfg)
    (hL1 : 16 ≤ L) (hL2 : L ≤ (cfg : Int))
    (hx0 : x ≠ 0) (hx1 : x ≠ -1) (hx2 : x ≠ -2) (hx4 : x ≠ -4) (hx8 : x ≠ -8)
    (hxlo : -2147483648 ≤ x) (hxhi : x < 2147483648)
    (hzlo : -9223372036854775808 ≤ zxid) (hzhi : zxid < 9223372036854775808)
    (helo : -2147483648 ≤ err) (hehi : err < 2147483648)
    (hbody : (body.length : Int) = L - 16)
    (hfind : mapFind s.reqs x = some (op, t0)) (hmono : t0 ≤ t) :
    decodeOnWrite cfg (encInt32 L ++ encInt32 x ++ encInt64 zxid ++ encInt32 err ++ body) 0 t s
      = .ok (4 + L.toNat,
             { cur := s.cur + 20, reqs := mapErase s.reqs x,
               cbs := s.cbs ++ [CB.onResponse op x zxid err ((t : Int) - (t0 : Int))] }) ∧
    0 ≤ (t : Int) - (t0 : Int) ∧
    mapFind (mapErase s.reqs x) x = none := by
  have hLu : toU32 L ≤ cfg := by
    rw [toU32_eq_toNat L (by omega) (by omega)]
    omega
  refine ⟨?_, by omega, mapFind_mapErase s.reqs x⟩
  set buf := encInt32 L ++ encInt32 x ++ encInt64 zxid ++ encInt32 err ++ body with hbuf
  have hblen : buf.length = 20 + body.length := by
    simp [hbuf, encInt32, encInt64]
    omega
  have e0 : toSigned32 (be32 buf 0) = L := by
    rw [hbuf]
    simp only [List.append_assoc]
    rw [be32_encInt32]
    exact toSigned32_toU32 L (by omega) (by omega)
  have e4 : toSigned32 (be32 buf 4) = x := by
    have h := be32_append_right (encInt32 L)
      (encInt32 x ++ (encInt64 zxid ++ (encInt32 err ++ body))) 0
    rw [encInt32_length] at h
    simp only [Nat.add_zero] at h
    rw [hbuf]
    simp only [List.append_assoc]
    rw [h, be32_encInt32]
    exact toSigned32_toU32 x hxlo hxhi
  have e8 : toSigned64 (be64 buf 8) = zxid := by
    have hre : buf = (encInt32 L ++ encInt32 x) ++ (encInt64 zxid ++ (encInt32 err ++ body)) := by
      simp [hbuf]
    have hlen8 : (encInt32 L ++ encInt32 x).length = 8 := by
      simp [encInt32]
    have h := be64_append_right (encInt32 L ++ encInt32 x)
      (encInt64 zxid ++ (encInt32 err ++ body)) 0
    rw [hlen8] at h
    simp only [Nat.add_zero] at h
    rw [hre, h, be64_encInt64]
    exact toSigned64_toU64 zxid hzlo hzhi
  have e16 : toSigned32 (be32 buf 16) = err := by
    have hre : buf = ((encInt32 L ++ encInt32 x) ++ encInt64 zxid) ++ (encInt32 err ++ body) := by
      simp [hbuf]
    have hlen16 : ((encInt32 L ++ encInt32 x) ++ encInt64 zxid).length = 16 := by
      simp [encInt32, encInt64]
    have h := be32_append_right ((encInt32 L ++ encInt32 x) ++ encInt64 zxid)
      (encInt32 err ++ body) 0
    rw [hlen16] at h
    simp only [Nat.add_zero] at h
    rw [hre, h, be32_encInt32]
    exact toSigned32_toU32 err helo hehi
  have harith : 16 + 4 + (L.toNat - 16) = 4 + L.toNat := by omega
  simp only [decodeOnWrite, bind_apply,
    peekInt32_ok cfg buf 0 s (by omega) (by omega), e0]
  simp only [bind_apply, ensureMinLength_ok L 16 _ hL1, pure_apply,
    ensureMaxLength_ok cfg L _ hLu]
  simp only [bind_apply,
    peekInt32_ok cfg buf 4 { s with cur := s.cur + 4 } (by simp; omega) (by omega), e4]
  simp only [if_neg hx1, bind_apply, hfind]
  simp only [if_neg hx0, bind_apply,
    peekInt64_ok cfg buf 8 { cur := s.cur + 4 + 4, reqs := mapErase s.reqs x, cbs := s.cbs }
      (by simp; omega) (by omega), e8]
  simp only [bind_apply,
    peekInt32_ok cfg buf 16
      { cur := s.cur + 4 + 4 + 8, reqs := mapErase s.reqs x, cbs := s.cbs }
      (by simp; omega) (by omega), e16]
  simp only [if_neg hx2, if_neg hx4, if_neg hx8, bind_apply, emit_apply, pure_apply]
  simp only [harith]

/-- Witness for C4: a GetData request with xid 5 recorded at time 3,
answered by a 16-byte response at time 9. -/
theorem C4_response_correlates_and_erases_witness :
    (mapFind [((5 : Int), (4 : Int), (3 : Nat))] 5 = some (4, 3) ∧ (3 : Nat) ≤ 9) ∧
    (decodeOnWrite 1024 (encInt32 16 ++ encInt32 5 ++ encInt64 7 ++ encInt32 0 ++ []) 0 9
        { cur := 0, reqs := [(5, 4, 3)], cbs := [] }
      = .ok (4 + (16 : Int).toNat,
             { cur := 0 + 20, reqs := mapErase [(5, 4, 3)] 5,
               cbs := [] ++ [CB.onResponse 4 5 7 0 ((9 : Int) - (3 : Int))] }) ∧
      0 ≤ (9 : Int) - (3 : Int) ∧
      mapFind (mapErase [((5 : Int), (4 : Int), (3 : Nat))] 5) 5 = none) :=
  ⟨⟨rfl, by decide⟩, by
    exact C4_response_correlates_and_erases 1024 16 5 7 0 4 []
      { cur := 0, reqs := [(5, 4, 3)], cbs := [] }
      3 9 (by decide) (by decide) (by decide) (by decide) (by decide) (by decide) (by decide)
      (by decide) (by decide) (by decide) (by decide) (by decide) (by decide) (by decide)
      (by decide) (by decide) rfl (by decide)⟩

/-- C2 counterexample: a Ping-xid (-2) response frame with declared length
L = 20 (so a 4-byte trailing body) leaves the decode offset at 20 rather
than at L + 4 = 24: the control-xid cases of `decodeOnWrite` return before
the `offset += len - 16` statement, so the trailing body is not skipped and
the frame is not fully consumed. -/
theorem C2_counterexample :
    decodeOnWrite 1048576 [0, 0, 0, 20, 255, 255, 255, 254, 0, 0, 0, 0, 0, 0, 0, 7,
        0, 0, 0, 0, 9, 9, 9, 9] 0 9 { cur := 0, reqs := [(-2, 11, 5)], cbs := [] }
      = .ok (20, { cur := 20, reqs := [], cbs := [CB.onResponse 11 (-2) 7 0 4] }) ∧
    toSigned32 (be32 [0, 0, 0, 20, 255, 255, 255, 254, 0, 0, 0, 0, 0, 0, 0, 7,
        0, 0, 0, 0, 9, 9, 9, 9] 0) = 20 := by
  constructor
  · rfl
  · decide

/-- C2 amended: for a response whose xid is `PingXid` (-2), `AuthXid` (-4)
or `SetWatchesXid` (-8), the decoder emits `on_response` with the mapped
opcode and returns immediately with the offset at 20 (the length prefix
plus xid, zxid and err), independent of the declared length `L`: the
`L - 16` advance is not executed, so the whole `L + 4`-byte frame is
consumed exactly when `L = 16` and any trailing body is left unconsumed. -/
theorem C2_amended_control_response_returns_at_20 (cfg : Nat) (L x zxid err op : Int)
    (body : List Nat) (s : St) (t0 t : Nat)
    (hcfg : cfg < 2147483648) (hcur : s.cur + 20 ≤ cfg)
    (hL1 : 16 ≤ L) (hL2 : L ≤ (cfg : Int))
    (hx : x = -2 ∨ x = -4 ∨ x = -8)
    (hzlo : -9223372036854775808 ≤ zxid) (hzhi : zxid < 9223372036854775808)
    (helo : -2147483648 ≤ err) (hehi : err < 2147483648)
    (hfind : mapFind s.reqs x = some (op, t0)) :
    decodeOnWrite cfg (encInt32 L ++ encInt32 x ++ encInt64 zxid ++ encInt32 err ++ body) 0 t s
      = .ok (20,
             { cur := s.cur + 20, reqs := mapErase s.reqs x,
               cbs := s.cbs ++ [CB.onResponse
                 (if x = -2 then OpCodes.Ping else if x = -4 then OpCodes.SetAuth
                  else OpCodes.SetWatches) x zxid err ((t : Int) - (t0 : Int))] }) := by
  have hLu : toU32 L ≤ cfg := by
    rw [toU32_eq_toNat L (by omega) (by omega)]
    omega
  have hx0 : x ≠ 0 := by rcases hx with h | h | h <;> simp [h]
  have hx1 : x ≠ -1 := by rcases hx with h | h | h <;> simp [h]
  have hxlo : -2147483648 ≤ x := by rcases hx with h | h | h <;> simp [h]
  have hxhi : x < 2147483648 := by rcases hx with h | h | h <;> simp [h]
  set buf := encInt32 L ++ encInt32 x ++ encInt64 zxid ++ encInt32 err ++ body with hbuf
  have hblen : buf.length = 20 + body.length := by
    simp [hbuf, encInt32, encInt64]
    omega
  have e0 : toSigned32 (be32 buf 0) = L := by
    rw [hbuf]
    simp only [List.append_assoc]
    rw [be32_encInt32]
    exact toSigned32_toU32 L (by omega) (by omega)
  have e4 : toSigned32 (be32 buf 4) = x := by
    have h := be32_append_right (encInt32 L)
      (encInt32 x ++ (encInt64 zxid ++ (encInt32 err ++ body))) 0
    rw [encInt32_length] at h
    simp only [Nat.add_zero] at h
    rw [hbuf]
    simp only [List.append_assoc]
    rw [h, be32_encInt32]
    exact toSigned32_toU32 x hxlo hxhi
  have e8 : toSigned64 (be64 buf 8) = zxid := by
    have hre : buf = (encInt32 L ++ encInt32 x) ++ (encInt64 zxid ++ (encInt32 err ++ body)) := by
      simp [hbuf]
    have hlen8 : (encInt32 L ++ encInt32 x).length = 8 := by
      simp [encInt32]
    have h := be64_append_right (encInt32 L ++ encInt32 x)
      (encInt64 zxid ++ (encInt32 err ++ body)) 0
    rw [hlen8] at h
    simp only [Nat.add_zero] at h
    rw [hre, h, be64_encInt64]
    exact toSigned64_toU64 zxid hzlo hzhi
  have e16 : toSigned32 (be32 buf 16) = err := by
    have hre : buf = ((encInt32 L ++ encInt32 x) ++ encInt64 zxid) ++ (encInt32 err ++ body) := by
      simp [hbuf]
    have hlen16 : ((encInt32 L ++ encInt32 x) ++ encInt64 zxid).length = 16 := by
      simp [encInt32, encInt64]
    have h := be32_append_right ((encInt32 L ++ encInt32 x) ++ encInt64 zxid)
      (encInt32 err ++ body) 0
    rw [hlen16] at h
    simp only [Nat.add_zero] at h
    rw [hre, h, be32_encInt32]
    exact toSigned32_toU32 err helo hehi
  simp only [decodeOnWrite, bind_apply,
    peekInt32_ok cfg buf 0 s (by omega) (by omega), e0]
  simp only [bind_apply, ensureMinLength_ok L 16 _ hL1, pure_apply,
    ensureMaxLength_ok cfg L _ hLu]
  simp only [bind_apply,
    peekInt32_ok cfg buf 4 { s with cur := s.cur + 4 } (by simp; omega) (by omega), e4]
  simp only [if_neg hx1, bind_apply, hfind]
  simp only [if_neg hx0, bind_apply,
    peekInt64_ok cfg buf 8 { cur := s.cur + 4 + 4, reqs := mapErase s.reqs x, cbs := s.cbs }
      (by simp; omega) (by omega), e8]
  simp only [bind_apply,
    peekInt32_ok cfg buf 16
      { cur := s.cur + 4 + 4 + 8, reqs := mapErase s.reqs x, cbs := s.cbs }
      (by simp; omega) (by omega), e16]
  rcases hx with h | h | h <;> subst h <;>
    simp [bind_apply, emit_apply, pure_apply]

/-- Witness for C2 amended: the counterexample frame, by the general
theorem. -/
theorem C2_amended_control_response_returns_at_20_witness :
    (((-2 : Int) = -2 ∨ (-2 : Int) = -4 ∨ (-2 : Int) = -8) ∧
      mapFind [((-2 : Int), (11 : Int), (5 : Nat))] (-2) = some (11, 5)) ∧
    decodeOnWrite 1048576 (encInt32 20 ++ encInt32 (-2) ++ encInt64 7 ++ encInt32 0 ++
        [9, 9, 9, 9]) 0 9 { cur := 0, reqs := [(-2, 11, 5)], cbs := [] }
      = .ok (20, { cur := 0 + 20, reqs := mapErase [(-2, 11, 5)] (-2),
                   cbs := [] ++ [CB.onResponse
                     (if (-2 : Int) = -2 then OpCodes.Ping else if (-2 : Int) = -4 then
                       OpCodes.SetAuth else OpCodes.SetWatches) (-2) 7 0 ((9 : Int) - (5 : Int))] }) :=
  ⟨⟨Or.inl rfl, rfl⟩, by
    exact C2_amended_control_response_returns_at_20 1048576 20 (-2) 7 0 11 [9, 9, 9, 9]
      { cur := 0, reqs := [(-2, 11, 5)], cbs := [] } 5 9
      (by decide) (by decide) (by decide) (by decide) (Or.inl rfl)
      (by decide) (by decide) (by decide) (by decide) rfl⟩

/-- C8: a decoded connect response always reports `protocol_version = 0`
and reports as `timeout` the 4-byte big-endian integer that sits at the
head of what the connect-response parser reads (frame offset 8, right
after the length prefix and the xid), whatever the wire values are. -/
theorem C8_connect_response_timeout_and_protocol_version (cfg : Nat)
    (L tv sess op : Int) (pw : List Nat) (s : St) (t0 t : Nat)
    (hcfg : cfg < 2147483648) (hcur : s.cur + 16 + pw.length ≤ cfg)
    (hL1 : 20 ≤ L) (hL2 : L ≤ (cfg : Int))
    (htlo : -2147483648 ≤ tv) (hthi : tv < 2147483648)
    (hpw : pw.length < 2147483648)
    (hfind : mapFind s.reqs 0 = some (op, t0)) :
    decodeOnWrite cfg (encInt32 L ++ encInt32 0 ++ encInt32 tv ++ encInt64 sess ++
        encInt32 (pw.length : Int) ++ pw) 0 t s
      = .ok (24 + pw.length,
             { cur := s.cur + 16 + pw.length, reqs := mapErase s.reqs 0,
               cbs := s.cbs ++ [CB.onConnectResponse 0 tv false ((t : Int) - (t0 : Int))] }) ∧
    toSigned32 (be32 (encInt32 L ++ encInt32 0 ++ encInt32 tv ++ encInt64 sess ++
        encInt32 (pw.length : Int) ++ pw) 8) = tv := by
  have hLu : toU32 L ≤ cfg := by
    rw [toU32_eq_toNat L (by omega) (by omega)]
    omega
  set buf := encInt32 L ++ encInt32 0 ++ encInt32 tv ++ encInt64 sess ++
    encInt32 (pw.length : Int) ++ pw with hbuf
  have hblen : buf.length = 24 + pw.length := by
    simp [hbuf, encInt32, encInt64]
    omega
  have e0 : toSigned32 (be32 buf 0) = L := by
    rw [hbuf]
    simp only [List.append_assoc]
    rw [be32_encInt32]
    exact toSigned32_toU32 L (by omega) (by omega)
  have e4 : toSigned32 (be32 buf 4) = 0 := by
    have h := be32_append_right (encInt32 L)
      (encInt32 0 ++ (encInt32 tv ++ (encInt64 sess ++ (encInt32 (pw.length : Int) ++ pw)))) 0
    rw [encInt32_length] at h
    simp only [Nat.add_zero] at h
    rw [hbuf]
    simp only [List.append_assoc]
    rw [h, be32_encInt32]
    exact toSigned32_toU32 0 (by omega) (by omega)
  have e8 : toSigned32 (be32 buf 8) = tv := by
    have hre : buf = (encInt32 L ++ encInt32 0) ++
        (encInt32 tv ++ (encInt64 sess ++ (encInt32 (pw.length : Int) ++ pw))) := by
      simp [hbuf]
    have hlen8 : (encInt32 L ++ encInt32 0).length = 8 := by
      simp [encInt32]
    have h := be32_append_right (encInt32 L ++ encInt32 0)
      (encInt32 tv ++ (encInt64 sess ++ (encInt32 (pw.length : Int) ++ pw))) 0
    rw [hlen8] at h
    simp only [Nat.add_zero] at h
    rw [hre, h, be32_encInt32]
    exact toSigned32_toU32 tv htlo hthi
  have e20 : toSigned32 (be32 buf 20) = (pw.length : Int) := by
    have hre : buf = (((encInt32 L ++ encInt32 0) ++ encInt32 tv) ++ encInt64 sess) ++
        (encInt32 (pw.length : Int) ++ pw) := by
      simp [hbuf]
    have hlen20 : (((encInt32 L ++ encInt32 0) ++ encInt32 tv) ++ encInt64 sess).length = 20 := by
      simp [encInt32, encInt64]
    have h := be32_append_right (((encInt32 L ++ encInt32 0) ++ encInt32 tv) ++ encInt64 sess)
      (encInt32 (pw.length : Int) ++ pw) 0
    rw [hlen20] at h
    simp only [Nat.add_zero] at h
    rw [hre, h, be32_encInt32]
    exact toSigned32_toU32 _ (by omega) (by omega)
  refine ⟨?_, e8⟩
  simp only [decodeOnWrite, bind_apply,
    peekInt32_ok cfg buf 0 s (by omega) (by omega), e0]
  simp only [bind_apply, ensureMinLength_ok L 16 _ (by omega), pure_apply,
    ensureMaxLength_ok cfg L _ hLu]
  simp only [bind_apply,
    peekInt32_ok cfg buf 4 { s with cur := s.cur + 4 } (by simp; omega) (by omega), e4]
  have hne : (0 : Int) ≠ -1 := by decide
  simp only [if_neg hne, bind_apply, hfind]
  simp only [if_true, parseConnectResponse, bind_apply,
    ensureMinLength_ok L 20 _ hL1, pure_apply]
  simp only [bind_apply,
    peekInt32_ok cfg buf 8 { cur := s.cur + 4 + 4, reqs := mapErase s.reqs 0, cbs := s.cbs }
      (by simp; omega) (by omega), e8]
  have hsk := skipString_nonneg cfg buf 20
    { cur := s.cur + 4 + 4 + 4, reqs := mapErase s.reqs 0, cbs := s.cbs }
    (by simp; omega) (by omega) (by rw [e20]; omega)
  rw [e20] at hsk
  simp only [Int.toNat_natCast] at hsk
  simp only [bind_apply, hsk]
  simp only [maybeReadBool, bind_apply, emit_apply, pure_apply,
    if_neg (by omega : ¬buf.length ≥ 20 + 4 + pw.length + 1)]

/-- Witness for C8: a connect response with timeout 30000 and an empty
password, correlated to a connect request recorded at time 5. -/
theorem C8_connect_response_timeout_and_protocol_version_witness :
    (mapFind [((0 : Int), (0 : Int), (5 : Nat))] 0 = some (0, 5)) ∧
    (decodeOnWrite 1048576 (encInt32 20 ++ encInt32 0 ++ encInt32 30000 ++ encInt64 9 ++
        encInt32 (([] : List Nat).length : Int) ++ []) 0 9
        { cur := 0, reqs := [(0, 0, 5)], cbs := [] }
      = .ok (24 + ([] : List Nat).length,
             { cur := 0 + 16 + ([] : List Nat).length, reqs := mapErase [(0, 0, 5)] 0,
               cbs := [] ++ [CB.onConnectResponse 0 30000 false ((9 : Int) - (5 : Int))] }) ∧
      toSigned32 (be32 (encInt32 20 ++ encInt32 0 ++ encInt32 30000 ++ encInt64 9 ++
        encInt32 (([] : List Nat).length : Int) ++ []) 8) = 30000) :=
  ⟨rfl, by
    exact C8_connect_response_timeout_and_protocol_version 1048576 20 30000 9 0 []
      { cur := 0, reqs := [(0, 0, 5)], cbs := [] } 5 9
      (by decide) (by decide) (by decide) (by decide) (by decide) (by decide) (by decide) rfl⟩

/-- C9: the optional readonly flag of a connect request and of a connect
response is resolved against the total buffer length, not the declared
frame length: a connect frame of exactly `L + 4` bytes with no flag yields
`on_connect false` / `on_connect_response(..., false, ...)` when nothing
follows in the buffer, but if any byte follows (such as the first byte of
the next message) that byte is consumed and interpreted as the flag, and
the decode consumes `L + 5` bytes. -/
theorem C9_connect_readonly_uses_buffer_end (cfg : Nat)
    (mid pw suffix pwr suffixR : List Nat) (tv sess op : Int) (s sR : St) (t tR t0 : Nat)
    (hcfg : cfg < 2147483648) (hcur : s.cur + 13 + pw.length ≤ cfg)
    (hmid : mid.length = 20) (hL2 : (28 + pw.length : Int) ≤ (cfg : Int))
    (hcurR : sR.cur + 17 + pwr.length ≤ cfg) (hLR : (20 + pwr.length : Int) ≤ (cfg : Int))
    (htlo : -2147483648 ≤ tv) (hthi : tv < 2147483648)
    (hfind : mapFind sR.reqs 0 = some (op, t0)) :
    (decodeOnData cfg ((encInt32 (28 + pw.length : Int) ++ encInt32 0 ++ mid ++
        encInt32 (pw.length : Int) ++ pw) ++ suffix) 0 t s
      = .ok (32 + pw.length + (if suffix.length = 0 then 0 else 1),
             { cur := s.cur + 12 + pw.length + (if suffix.length = 0 then 0 else 1),
               reqs := mapSet s.reqs 0 OpCodes.Connect t,
               cbs := s.cbs ++ [CB.onConnect
                 (if suffix.length = 0 then false else (byteAt suffix 0 != 0))] })) ∧
    (decodeOnWrite cfg ((encInt32 (20 + pwr.length : Int) ++ encInt32 0 ++ encInt32 tv ++
        encInt64 sess ++ encInt32 (pwr.length : Int) ++ pwr) ++ suffixR) 0 tR sR
      = .ok (24 + pwr.length + (if suffixR.length = 0 then 0 else 1),
             { cur := sR.cur + 16 + pwr.length + (if suffixR.length = 0 then 0 else 1),
               reqs := mapErase sR.reqs 0,
               cbs := sR.cbs ++ [CB.onConnectResponse 0 tv
                 (if suffixR.length = 0 then false else (byteAt suffixR 0 != 0))
                 ((tR : Int) - (t0 : Int))] })) := by
  constructor
  · have hpw : (pw.length : Int) < 2147483648 := by omega
    set L : Int := (28 + pw.length : Int) with hLdef
    set frame := encInt32 L ++ encInt32 0 ++ mid ++ encInt32 (pw.length : Int) ++ pw with hframe
    set buf := frame ++ suffix with hbuf
    have hflen : frame.length = 32 + pw.length := by
      simp [hframe, encInt32]
      omega
    have hblen : buf.length = 32 + pw.length + suffix.length := by
      simp [hbuf, hflen]
    have hLu : toU32 L ≤ cfg := by
      rw [toU32_eq_toNat L (by omega) (by omega)]
      omega
    have e0 : toSigned32 (be32 buf 0) = L := by
      rw [hbuf, hframe]
      simp only [List.append_assoc]
      rw [be32_encInt32]
      exact toSigned32_toU32 L (by omega) (by omega)
    have e4 : toSigned32 (be32 buf 4) = 0 := by
      have h := be32_append_right (encInt32 L)
        (encInt32 0 ++ (mid ++ (encInt32 (pw.length : Int) ++ (pw ++ suffix)))) 0
      rw [encInt32_length] at h
      simp only [Nat.add_zero] at h
      rw [hbuf, hframe]
      simp only [List.append_assoc]
      rw [h, be32_encInt32]
      exact toSigned32_toU32 0 (by omega) (by omega)
    have e28 : toSigned32 (be32 buf 28) = (pw.length : Int) := by
      have hre : buf = ((encInt32 L ++ encInt32 0) ++ mid) ++
          (encInt32 (pw.length : Int) ++ (pw ++ suffix)) := by
        simp [hbuf, hframe]
      have hlen28 : ((encInt32 L ++ encInt32 0) ++ mid).length = 28 := by
        simp [encInt32, hmid]
      have h := be32_append_right ((encInt32 L ++ encInt32 0) ++ mid)
        (encInt32 (pw.length : Int) ++ (pw ++ suffix)) 0
      rw [hlen28] at h
      simp only [Nat.add_zero] at h
      rw [hre, h, be32_encInt32]
      exact toSigned32_toU32 _ (by omega) (by omega)
    simp only [decodeOnData, bind_apply,
      peekInt32_ok cfg buf 0 s (by omega) (by omega), e0]
    simp only [bind_apply, ensureMinLength_ok L 8 _ (by omega), pure_apply,
      ensureMaxLength_ok cfg L _ hLu]
    simp only [bind_apply,
      peekInt32_ok cfg buf 4 { s with cur := s.cur + 4 } (by simp; omega) (by omega), e4]
    simp only [if_true, parseConnect, bind_apply,
      ensureMinLength_ok L 28 _ (by omega), pure_apply]
    have hsk := skipString_nonneg cfg buf 28
      { cur := s.cur + 4 + 4, reqs := s.reqs, cbs := s.cbs }
      (by simp; omega) (by omega) (by rw [e28]; omega)
    rw [e28] at hsk
    simp only [Int.toNat_natCast] at hsk
    simp only [bind_apply, hsk]
    rcases suffix with _ | ⟨b, tail⟩
    · simp only [maybeReadBool, bind_apply, emit_apply, pure_apply, recordReq_apply,
        if_neg (by simp at hblen ⊢; omega : ¬buf.length ≥ 28 + 4 + pw.length + 1)]
      simp
    · have ebyte : byteAt buf (32 + pw.length) = b := by
        have h := byteAt_append_right frame (b :: tail) 0
        rw [hflen] at h
        simp only [Nat.add_zero] at h
        rw [hbuf, h]
        rfl
      simp only [maybeReadBool,
        if_pos (by simp at hblen ⊢; omega : buf.length ≥ 28 + 4 + pw.length + 1), bind_apply,
        peekBool_ok cfg buf (28 + 4 + pw.length)
          { cur := s.cur + 4 + 4 + 4 + pw.length, reqs := s.reqs, cbs := s.cbs }
          (by simp; omega) (by simp at hblen ⊢; omega)]
      have hpos : 28 + 4 + pw.length = 32 + pw.length := by omega
      rw [hpos] at ebyte ⊢
      simp only [ebyte, bind_apply, emit_apply, recordReq_apply, pure_apply]
      simp
      rfl
  · have hpwr : (pwr.length : Int) < 2147483648 := by omega
    set LR : Int := (20 + pwr.length : Int) with hLRdef
    set frameR := encInt32 LR ++ encInt32 0 ++ encInt32 tv ++ encInt64 sess ++
      encInt32 (pwr.length : Int) ++ pwr with hframeR
    set bufR := frameR ++ suffixR with hbufR
    have hflenR : frameR.length = 24 + pwr.length := by
      simp [hframeR, encInt32, encInt64]
      omega
    have hblenR : bufR.length = 24 + pwr.length + suffixR.length := by
      simp [hbufR, hflenR]
    have hLuR : toU32 LR ≤ cfg := by
      rw [toU32_eq_toNat LR (by omega) (by omega)]
      omega
    have e0 : toSigned32 (be32 bufR 0) = LR := by
      rw [hbufR, hframeR]
      simp only [List.append_assoc]
      rw [be32_encInt32]
      exact toSigned32_toU32 LR (by omega) (by omega)
    have e4 : toSigned32 (be32 bufR 4) = 0 := by
      have h := be32_append_right (encInt32 LR)
        (encInt32 0 ++ (encInt32 tv ++ (encInt64 sess ++
          (encInt32 (pwr.length : Int) ++ (pwr ++ suffixR))))) 0
      rw [encInt32_length] at h
      simp only [Nat.add_zero] at h
      rw [hbufR, hframeR]
      simp only [List.append_assoc]
      rw [h, be32_encInt32]
      exact toSigned32_toU32 0 (by omega) (by omega)
    have e8 : toSigned32 (be32 bufR 8) = tv := by
      have hre : bufR = (encInt32 LR ++ encInt32 0) ++
          (encInt32 tv ++ (encInt64 sess ++
            (encInt32 (pwr.length : Int) ++ (pwr ++ suffixR)))) := by
        simp [hbufR, hframeR]
      have hlen8 : (encInt32 LR ++ encInt32 0).length = 8 := by
        simp [encInt32]
      have h := be32_append_right (encInt32 LR ++ encInt32 0)
        (encInt32 tv ++ (encInt64 sess ++
          (encInt32 (pwr.length : Int) ++ (pwr ++ suffixR)))) 0
      rw [hlen8] at h
      simp only [Nat.add_zero] at h
      rw [hre, h, be32_encInt32]
      exact toSigned32_toU32 tv htlo hthi
    have e20 : toSigned32 (be32 bufR 20) = (pwr.length : Int) := by
      have hre : bufR = (((encInt32 LR ++ encInt32 0) ++ encInt32 tv) ++ encInt64 sess) ++
          (encInt32 (pwr.length : Int) ++ (pwr ++ suffixR)) := by
        simp [hbufR, hframeR]
      have hlen20 : ((((encInt32 LR ++ encInt32 0) ++ encInt32 tv) ++
          encInt64 sess)).length = 20 := by
        simp [encInt32, encInt64]
      have h := be32_append_right (((encInt32 LR ++ encInt32 0) ++ encInt32 tv) ++ encInt64 sess)
        (encInt32 (pwr.length : Int) ++ (pwr ++ suffixR)) 0
      rw [hlen20] at h
      simp only [Nat.add_zero] at h
      rw [hre, h, be32_encInt32]
      exact toSigned32_toU32 _ (by omega) (by omega)
    simp only [decodeOnWrite, bind_apply,
      peekInt32_ok cfg bufR 0 sR (by omega) (by omega), e0]
    simp only [bind_apply, ensureMinLength_ok LR 16 _ (by omega), pure_apply,
      ensureMaxLength_ok cfg LR _ hLuR]
    simp only [bind_apply,
      peekInt32_ok cfg bufR 4 { sR with cur := sR.cur + 4 } (by simp; omega) (by omega), e4]
    have hne : (0 : Int) ≠ -1 := by decide
    simp only [if_neg hne, bind_apply, hfind]
    simp only [if_true, parseConnectResponse, bind_apply,
      ensureMinLength_ok LR 20 _ (by omega), pure_apply]
    simp only [bind_apply,
      peekInt32_ok cfg bufR 8
        { cur := sR.cur + 4 + 4, reqs := mapErase sR.reqs 0, cbs := sR.cbs }
        (by simp; omega) (by omega), e8]
    have hsk := skipString_nonneg cfg bufR 20
      { cur := sR.cur + 4 + 4 + 4, reqs := mapErase sR.reqs 0, cbs := sR.cbs }
      (by simp; omega) (by omega) (by rw [e20]; omega)
    rw [e20] at hsk
    simp only [Int.toNat_natCast] at hsk
    simp only [bind_apply, hsk]
    rcases suffixR with _ | ⟨b, tail⟩
    · simp only [maybeReadBool, bind_apply, emit_apply, pure_apply,
        if_neg (by simp at hblenR ⊢; omega : ¬bufR.length ≥ 20 + 4 + pwr.length + 1)]
      simp
    · have ebyte : byteAt bufR (24 + pwr.length) = b := by
        have h := byteAt_append_right frameR (b :: tail) 0
        rw [hflenR] at h
        simp only [Nat.add_zero] at h
        rw [hbufR, h]
        rfl
      simp only [maybeReadBool,
        if_pos (by simp at hblenR ⊢; omega : bufR.length ≥ 20 + 4 + pwr.length + 1), bind_apply,
        peekBool_ok cfg bufR (20 + 4 + pwr.length)
          { cur := sR.cur + 4 + 4 + 4 + 4 + pwr.length, reqs := mapErase sR.reqs 0,
            cbs := sR.cbs }
          (by simp; omega) (by simp at hblenR ⊢; omega)]
      have hpos : 20 + 4 + pwr.length = 24 + pwr.length := by omega
      rw [hpos] at ebyte ⊢
      simp only [ebyte, bind_apply, emit_apply, pure_apply]
      simp
      rfl

/-- Witness for C9: a minimal connect frame (empty password) followed by
one extra byte 1, and a minimal connect response (empty password) followed
by one extra byte 1; in both directions the extra byte is consumed and
read as readonly = true. -/
theorem C9_connect_readonly_uses_buffer_end_witness :
    ((List.replicate 20 0).length = 20 ∧
      (28 + ([] : List Nat).length : Int) ≤ (1024 : Nat) ∧
      mapFind [((0 : Int), (0 : Int), (5 : Nat))] 0 = some (0, 5)) ∧
    (decodeOnData 1024 ((encInt32 (28 + ([] : List Nat).length : Int) ++ encInt32 0 ++
        List.replicate 20 0 ++ encInt32 (([] : List Nat).length : Int) ++ []) ++ [1]) 0 5
        { cur := 0, reqs := [], cbs := [] }
      = .ok (32 + ([] : List Nat).length + (if [(1 : Nat)].length = 0 then 0 else 1),
             { cur := 0 + 12 + ([] : List Nat).length + (if [(1 : Nat)].length = 0 then 0 else 1),
               reqs := mapSet [] 0 OpCodes.Connect 5,
               cbs := [] ++ [CB.onConnect
                 (if [(1 : Nat)].length = 0 then false else (byteAt [1] 0 != 0))] })) ∧
    (decodeOnWrite 1024 ((encInt32 (20 + ([] : List Nat).length : Int) ++ encInt32 0 ++
        encInt32 30000 ++ encInt64 9 ++ encInt32 (([] : List Nat).length : Int) ++ []) ++ [1])
        0 9 { cur := 0, reqs := [(0, 0, 5)], cbs := [] }
      = .ok (24 + ([] : List Nat).length + (if [(1 : Nat)].length = 0 then 0 else 1),
             { cur := 0 + 16 + ([] : List Nat).length + (if [(1 : Nat)].length = 0 then 0 else 1),
               reqs := mapErase [(0, 0, 5)] 0,
               cbs := [] ++ [CB.onConnectResponse 0 30000
                 (if [(1 : Nat)].length = 0 then false else (byteAt [1] 0 != 0))
                 (((9 : Nat) : Int) - ((5 : Nat) : Int))] })) :=
  ⟨⟨by decide, by decide, rfl⟩, by
    exact C9_connect_readonly_uses_buffer_end 1024 (List.replicate 20 0) [] [1] [] [1]
      30000 9 0 { cur := 0, reqs := [], cbs := [] } { cur := 0, reqs := [(0, 0, 5)], cbs := [] }
      5 9 5 (by decide) (by decide) (by decide) (by decide) (by decide) (by decide)
      (by decide) (by decide) rfl⟩

/-- A single-message decode error surfaces as `onDecodeError` at the
`decode` level: the loop resets the cursor, the message decode fails, and
the catch block appends the error callback. -/
theorem decodeRun_err (cfg : Nat) (buf : List Nat) (t : Nat) (s st' : St) (msg : String)
    (h : decodeOnData cfg buf 0 t { s with cur := 0 } = .error (msg, st'))
    (hne : 0 < buf.length) :
    decodeRun cfg buf .READ t s = { st' with cbs := st'.cbs ++ [CB.onDecodeError] } := by
  unfold decodeRun
  have hloop : decodeLoop cfg buf .READ t (buf.length + 1) 0 s = .error (msg, st') := by
    rw [decodeLoop]
    simp only [if_pos hne, bind_apply, hReset_apply, h]
  rw [hloop]

/-- A data request whose opcode is outside the recognized set is the fatal
"Unknown opcode" decoding error. -/
theorem decodeOnData_unknown_opcode (cfg : Nat) (L x oc : Int) (rest : List Nat)
    (s : St) (t : Nat)
    (hcfg : cfg < 2147483648) (hcur : s.cur + 12 ≤ cfg)
    (hL1 : 8 ≤ L) (hL2 : L ≤ (cfg : Int))
    (hx0 : x ≠ 0) (hx2 : x ≠ -2) (hx4 : x ≠ -4) (hx8 : x ≠ -8)
    (hxlo : -2147483648 ≤ x) (hxhi : x < 2147483648)
    (hoclo : -2147483648 ≤ oc) (hochi : oc < 2147483648)
    (hoc : oc ∉ recognizedOpcodes) :
    decodeOnData cfg (encInt32 L ++ encInt32 x ++ encInt32 oc ++ rest) 0 t s
      = .error ("Unknown opcode", { cur := s.cur + 12, reqs := s.reqs, cbs := s.cbs }) := by
  have hLu : toU32 L ≤ cfg := by
    rw [toU32_eq_toNat L (by omega) (by omega)]
    omega
  set buf := encInt32 L ++ encInt32 x ++ encInt32 oc ++ rest with hbuf
  have hblen : buf.length = 12 + rest.length := by
    simp [hbuf, encInt32]
    omega
  have e0 : toSigned32 (be32 buf 0) = L := by
    rw [hbuf]
    simp only [List.append_assoc]
    rw [be32_encInt32]
    exact toSigned32_toU32 L (by omega) (by omega)
  have e4 : toSigned32 (be32 buf 4) = x := by
    have h := be32_append_right (encInt32 L) (encInt32 x ++ (encInt32 oc ++ rest)) 0
    rw [encInt32_length] at h
    simp only [Nat.add_zero] at h
    rw [hbuf]
    simp only [List.append_assoc]
    rw [h, be32_encInt32]
    exact toSigned32_toU32 x hxlo hxhi
  have e8 : toSigned32 (be32 buf 8) = oc := by
    have hre : buf = (encInt32 L ++ encInt32 x) ++ (encInt32 oc ++ rest) := by
      simp [hbuf]
    have hlen8 : (encInt32 L ++ encInt32 x).length = 8 := by
      simp [encInt32]
    have h := be32_append_right (encInt32 L ++ encInt32 x) (encInt32 oc ++ rest) 0
    rw [hlen8] at h
    simp only [Nat.add_zero] at h
    rw [hre, h, be32_encInt32]
    exact toSigned32_toU32 oc hoclo hochi
  simp only [decodeOnData, bind_apply,
    peekInt32_ok cfg buf 0 s (by omega) (by omega), e0]
  simp only [bind_apply, ensureMinLength_ok L 8 _ hL1, pure_apply,
    ensureMaxLength_ok cfg L _ hLu]
  simp only [bind_apply,
    peekInt32_ok cfg buf 4 { s with cur := s.cur + 4 } (by simp; omega) (by omega), e4]
  simp only [if_neg hx0, if_neg hx2, if_neg hx4, if_neg hx8, bind_apply,
    peekInt32_ok cfg buf 8 { s with cur := s.cur + 4 + 4 } (by simp; omega) (by omega), e8]
  have hmem : ∀ c, c ∈ recognizedOpcodes → oc ≠ c := fun c hc h => hoc (h ▸ hc)
  have hg1 : oc ≠ OpCodes.GetData := hmem _ (by simp [recognizedOpcodes])
  have hg2 : ¬(oc = OpCodes.Create ∨ oc = OpCodes.Create2 ∨ oc = OpCodes.CreateContainer ∨
      oc = OpCodes.CreateTtl) := by
    rintro (h | h | h | h)
    · exact hmem _ (by simp [recognizedOpcodes]) h
    · exact hmem _ (by simp [recognizedOpcodes]) h
    · exact hmem _ (by simp [recognizedOpcodes]) h
    · exact hmem _ (by simp [recognizedOpcodes]) h
  have hg3 : oc ≠ OpCodes.SetData := hmem _ (by simp [recognizedOpcodes])
  have hg4 : oc ≠ OpCodes.GetChildren := hmem _ (by simp [recognizedOpcodes])
  have hg5 : oc ≠ OpCodes.GetChildren2 := hmem _ (by simp [recognizedOpcodes])
  have hg6 : oc ≠ OpCodes.Delete := hmem _ (by simp [recognizedOpcodes])
  have hg7 : oc ≠ OpCodes.Exists := hmem _ (by simp [recognizedOpcodes])
  have hg8 : oc ≠ OpCodes.GetAcl := hmem _ (by simp [recognizedOpcodes])
  have hg9 : oc ≠ OpCodes.SetAcl := hmem _ (by simp [recognizedOpcodes])
  have hg10 : oc ≠ OpCodes.Sync := hmem _ (by simp [recognizedOpcodes])
  have hg11 : oc ≠ OpCodes.Check := hmem _ (by simp [recognizedOpcodes])
  have hg12 : oc ≠ OpCodes.Multi := hmem _ (by simp [recognizedOpcodes])
  have hg13 : oc ≠ OpCodes.Reconfig := hmem _ (by simp [recognizedOpcodes])
  have hg14 : oc ≠ OpCodes.SetWatches := hmem _ (by simp [recognizedOpcodes])
  have hg15 : oc ≠ OpCodes.CheckWatches := hmem _ (by simp [recognizedOpcodes])
  have hg16 : oc ≠ OpCodes.RemoveWatches := hmem _ (by simp [recognizedOpcodes])
  have hg17 : oc ≠ OpCodes.GetEphemerals := hmem _ (by simp [recognizedOpcodes])
  have hg18 : oc ≠ OpCodes.GetAllChildrenNumber := hmem _ (by simp [recognizedOpcodes])
  have hg19 : oc ≠ OpCodes.Close := hmem _ (by simp [recognizedOpcodes])
  simp only [if_neg hg1, if_neg hg2, if_neg hg3, if_neg hg4, if_neg hg5, if_neg hg6,
    if_neg hg7, if_neg hg8, if_neg hg9, if_neg hg10, if_neg hg11, if_neg hg12,
    if_neg hg13, if_neg hg14, if_neg hg15, if_neg hg16, if_neg hg17, if_neg hg18,
    if_neg hg19, bind_apply, throwErr_apply]

/-- Inside a Multi request, a nested sub-operation opcode other than
Create, SetData or Check is the fatal "Unknown opcode within a
transaction" decoding error. -/
theorem decodeOnData_unknown_multi_opcode (cfg : Nat) (L x noc e2 : Int)
    (rest : List Nat) (s : St) (t : Nat)
    (hcfg : cfg < 2147483648) (hcur : s.cur + 21 ≤ cfg)
    (hL1 : 17 ≤ L) (hL2 : L ≤ (cfg : Int))
    (hx0 : x ≠ 0) (hx2 : x ≠ -2) (hx4 : x ≠ -4) (hx8 : x ≠ -8)
    (hxlo : -2147483648 ≤ x) (hxhi : x < 2147483648)
    (hnlo : -2147483648 ≤ noc) (hnhi : noc < 2147483648)
    (hn1 : noc ≠ OpCodes.Create) (hn5 : noc ≠ OpCodes.SetData) (hn13 : noc ≠ OpCodes.Check) :
    decodeOnData cfg (encInt32 L ++ encInt32 x ++ encInt32 OpCodes.Multi ++ encInt32 noc ++
        [0] ++ encInt32 e2 ++ rest) 0 t s
      = .error ("Unknown opcode within a transaction",
                { cur := s.cur + 21, reqs := s.reqs, cbs := s.cbs }) := by
  have hLu : toU32 L ≤ cfg := by
    rw [toU32_eq_toNat L (by omega) (by omega)]
    omega
  set buf := encInt32 L ++ encInt32 x ++ encInt32 OpCodes.Multi ++ encInt32 noc ++
    [0] ++ encInt32 e2 ++ rest with hbuf
  have hblen : buf.length = 21 + rest.length := by
    simp [hbuf, encInt32, OpCodes.Multi]
    omega
  have e0 : toSigned32 (be32 buf 0) = L := by
    rw [hbuf]
    simp only [List.append_assoc]
    rw [be32_encInt32]
    exact toSigned32_toU32 L (by omega) (by omega)
  have e4 : toSigned32 (be32 buf 4) = x := by
    have h := be32_append_right (encInt32 L)
      (encInt32 x ++ (encInt32 OpCodes.Multi ++ (encInt32 noc ++
        ([0] ++ (encInt32 e2 ++ rest))))) 0
    rw [encInt32_length] at h
    simp only [Nat.add_zero] at h
    rw [hbuf]
    simp only [List.append_assoc]
    rw [h, be32_encInt32]
    exact toSigned32_toU32 x hxlo hxhi
  have e8 : toSigned32 (be32 buf 8) = OpCodes.Multi := by
    have hre : buf = (encInt32 L ++ encInt32 x) ++ (encInt32 OpCodes.Multi ++
        (encInt32 noc ++ ([0] ++ (encInt32 e2 ++ rest)))) := by
      simp [hbuf]
    have hlen8 : (encInt32 L ++ encInt32 x).length = 8 := by
      simp [encInt32]
    have h := be32_append_right (encInt32 L ++ encInt32 x)
      (encInt32 OpCodes.Multi ++ (encInt32 noc ++ ([0] ++ (encInt32 e2 ++ rest)))) 0
    rw [hlen8] at h
    simp only [Nat.add_zero] at h
    rw [hre, h, be32_encInt32]
    exact toSigned32_toU32 OpCodes.Multi (by decide) (by decide)
  have e12 : toSigned32 (be32 buf 12) = noc := by
    have hre : buf = ((encInt32 L ++ encInt32 x) ++ encInt32 OpCodes.Multi) ++
        (encInt32 noc ++ ([0] ++ (encInt32 e2 ++ rest))) := by
      simp [hbuf]
    have hlen12 : ((encInt32 L ++ encInt32 x) ++ encInt32 OpCodes.Multi).length = 12 := by
      simp [encInt32]
    have h := be32_append_right ((encInt32 L ++ encInt32 x) ++ encInt32 OpCodes.Multi)
      (encInt32 noc ++ ([0] ++ (encInt32 e2 ++ rest))) 0
    rw [hlen12] at h
    simp only [Nat.add_zero] at h
    rw [hre, h, be32_encInt32]
    exact toSigned32_toU32 noc hnlo hnhi
  have b16 : byteAt buf 16 = 0 := by
    have hre : buf = (((encInt32 L ++ encInt32 x) ++ encInt32 OpCodes.Multi) ++
        encInt32 noc) ++ ([0] ++ (encInt32 e2 ++ rest)) := by
      simp [hbuf]
    have hlen16 : ((((encInt32 L ++ encInt32 x) ++ encInt32 OpCodes.Multi) ++
        encInt32 noc)).length = 16 := by
      simp [encInt32]
    have h := byteAt_append_right (((encInt32 L ++ encInt32 x) ++ encInt32 OpCodes.Multi) ++
        encInt32 noc) ([0] ++ (encInt32 e2 ++ rest)) 0
    rw [hlen16] at h
    simp only [Nat.add_zero] at h
    rw [hre, h]
    rfl
  simp only [decodeOnData, bind_apply,
    peekInt32_ok cfg buf 0 s (by omega) (by omega), e0]
  simp only [bind_apply, ensureMinLength_ok L 8 _ (by omega), pure_apply,
    ensureMaxLength_ok cfg L _ hLu]
  simp only [bind_apply,
    peekInt32_ok cfg buf 4 { s with cur := s.cur + 4 } (by simp; omega) (by omega), e4]
  simp only [if_neg hx0, if_neg hx2, if_neg hx4, if_neg hx8, bind_apply,
    peekInt32_ok cfg buf 8 { s with cur := s.cur + 4 + 4 } (by simp; omega) (by omega), e8]
  simp only [OpCodes.Multi, OpCodes.GetData, OpCodes.Create, OpCodes.Create2,
    OpCodes.CreateContainer, OpCodes.CreateTtl, OpCodes.SetData, OpCodes.GetChildren,
    OpCodes.GetChildren2, OpCodes.Delete, OpCodes.Exists, OpCodes.GetAcl, OpCodes.SetAcl,
    OpCodes.Sync, OpCodes.Check, OpCodes.Reconfig, OpCodes.SetWatches, OpCodes.CheckWatches,
    OpCodes.RemoveWatches, OpCodes.GetEphemerals, OpCodes.GetAllChildrenNumber, OpCodes.Close]
  norm_num
  simp only [parseMultiRequest, bind_apply, ensureMinLength_ok L 17 _ hL1, pure_apply]
  rw [show cfg + 1 = (cfg : Nat) + 1 from rfl]
  rw [multiLoop]
  simp only [bind_apply,
    peekInt32_ok cfg buf 12 { s with cur := s.cur + 4 + 4 + 4 } (by simp; omega) (by omega),
    e12]
  simp only [bind_apply,
    peekBool_ok cfg buf 16 { s with cur := s.cur + 4 + 4 + 4 + 4 } (by simp; omega)
      (by omega), b16]
  simp only [bind_apply,
    peekInt32_ok cfg buf 17 { s with cur := s.cur + 4 + 4 + 4 + 4 + 1 } (by simp; omega)
      (by omega)]
  simp only [bne_self_eq_false, Bool.false_eq_true, if_false, if_neg hn1, if_neg hn5,
    if_neg hn13, bind_apply, throwErr_apply]

/-- C6: an opcode outside the recognized set in a data request is the fatal
"Unknown opcode" error, a nested Multi sub-operation other than Create,
SetData or Check is the fatal "Unknown opcode within a transaction" error,
and both abort the decode with `on_decode_error`. -/
theorem C6_unknown_opcode_fatal (cfg : Nat) (L1 x1 oc L2 x2 noc e2 : Int)
    (rest1 rest2 : List Nat) (s : St) (t : Nat)
    (hcfg : cfg < 2147483648) (hcur : s.cur = 0) (hc21 : 21 ≤ cfg)
    (hL1a : 8 ≤ L1) (hL1b : L1 ≤ (cfg : Int))
    (hx10 : x1 ≠ 0) (hx12 : x1 ≠ -2) (hx14 : x1 ≠ -4) (hx18 : x1 ≠ -8)
    (hx1lo : -2147483648 ≤ x1) (hx1hi : x1 < 2147483648)
    (hoclo : -2147483648 ≤ oc) (hochi : oc < 2147483648)
    (hoc : oc ∉ recognizedOpcodes)
    (hL2a : 17 ≤ L2) (hL2b : L2 ≤ (cfg : Int))
    (hx20 : x2 ≠ 0) (hx22 : x2 ≠ -2) (hx24 : x2 ≠ -4) (hx28 : x2 ≠ -8)
    (hx2lo : -2147483648 ≤ x2) (hx2hi : x2 < 2147483648)
    (hnlo : -2147483648 ≤ noc) (hnhi : noc < 2147483648)
    (hn1 : noc ≠ OpCodes.Create) (hn5 : noc ≠ OpCodes.SetData) (hn13 : noc ≠ OpCodes.Check) :
    decodeOnData cfg (encInt32 L1 ++ encInt32 x1 ++ encInt32 oc ++ rest1) 0 t s
      = .error ("Unknown opcode", { cur := s.cur + 12, reqs := s.reqs, cbs := s.cbs }) ∧
    (decodeRun cfg (encInt32 L1 ++ encInt32 x1 ++ encInt32 oc ++ rest1) .READ t s).cbs
      = s.cbs ++ [CB.onDecodeError] ∧
    decodeOnData cfg (encInt32 L2 ++ encInt32 x2 ++ encInt32 OpCodes.Multi ++ encInt32 noc ++
        [0] ++ encInt32 e2 ++ rest2) 0 t s
      = .error ("Unknown opcode within a transaction",
                { cur := s.cur + 21, reqs := s.reqs, cbs := s.cbs }) ∧
    (decodeRun cfg (encInt32 L2 ++ encInt32 x2 ++ encInt32 OpCodes.Multi ++ encInt32 noc ++
        [0] ++ encInt32 e2 ++ rest2) .READ t s).cbs
      = s.cbs ++ [CB.onDecodeError] := by
  have h1 := decodeOnData_unknown_opcode cfg L1 x1 oc rest1 s t hcfg (by omega) hL1a hL1b
    hx10 hx12 hx14 hx18 hx1lo hx1hi hoclo hochi hoc
  have h1r := decodeOnData_unknown_opcode cfg L1 x1 oc rest1 { s with cur := 0 } t hcfg
    (by simp; omega) hL1a hL1b hx10 hx12 hx14 hx18 hx1lo hx1hi hoclo hochi hoc
  have h2 := decodeOnData_unknown_multi_opcode cfg L2 x2 noc e2 rest2 s t hcfg (by omega)
    hL2a hL2b hx20 hx22 hx24 hx28 hx2lo hx2hi hnlo hnhi hn1 hn5 hn13
  have h2r := decodeOnData_unknown_multi_opcode cfg L2 x2 noc e2 rest2 { s with cur := 0 } t
    hcfg (by simp; omega) hL2a hL2b hx20 hx22 hx24 hx28 hx2lo hx2hi hnlo hnhi hn1 hn5 hn13
  have hlen1 : 0 < (encInt32 L1 ++ encInt32 x1 ++ encInt32 oc ++ rest1).length := by
    simp [encInt32]
  have hlen2 : 0 < (encInt32 L2 ++ encInt32 x2 ++ encInt32 OpCodes.Multi ++ encInt32 noc ++
      [0] ++ encInt32 e2 ++ rest2).length := by
    simp [encInt32]
  refine ⟨h1, ?_, h2, ?_⟩
  · rw [decodeRun_err cfg _ t s _ _ h1r hlen1]
  · rw [decodeRun_err cfg _ t s _ _ h2r hlen2]

/-- Witness for C6: top-level opcode 0x7FFFFFFF and nested Multi
sub-operation Delete (2), both fatal. -/
theorem C6_unknown_opcode_fatal_witness :
    ((2147483647 : Int) ∉ recognizedOpcodes ∧ (2 : Int) ≠ OpCodes.Create ∧
      (2 : Int) ≠ OpCodes.SetData ∧ (2 : Int) ≠ OpCodes.Check) ∧
    (decodeOnData 1024 (encInt32 8 ++ encInt32 1 ++ encInt32 2147483647 ++ []) 0 5
        { cur := 0, reqs := [], cbs := [] }
      = .error ("Unknown opcode", { cur := 0 + 12, reqs := [], cbs := [] }) ∧
      (decodeRun 1024 (encInt32 8 ++ encInt32 1 ++ encInt32 2147483647 ++ []) .READ 5
        { cur := 0, reqs := [], cbs := [] }).cbs = [] ++ [CB.onDecodeError] ∧
      decodeOnData 1024 (encInt32 17 ++ encInt32 1 ++ encInt32 OpCodes.Multi ++ encInt32 2 ++
          [0] ++ encInt32 0 ++ []) 0 5 { cur := 0, reqs := [], cbs := [] }
        = .error ("Unknown opcode within a transaction",
                  { cur := 0 + 21, reqs := [], cbs := [] }) ∧
      (decodeRun 1024 (encInt32 17 ++ encInt32 1 ++ encInt32 OpCodes.Multi ++ encInt32 2 ++
          [0] ++ encInt32 0 ++ []) .READ 5 { cur := 0, reqs := [], cbs := [] }).cbs
        = [] ++ [CB.onDecodeError]) :=
  ⟨⟨by decide, by decide, by decide, by decide⟩, by
    exact C6_unknown_opcode_fatal 1024 8 1 2147483647 17 1 2 0 [] []
      { cur := 0, reqs := [], cbs := [] } 5
      (by decide) rfl (by decide) (by decide) (by decide) (by decide) (by decide) (by decide)
      (by decide) (by decide) (by decide) (by decide) (by decide) (by decide) (by decide)
      (by decide) (by decide) (by decide) (by decide) (by decide) (by decide) (by decide)
      (by decide) (by decide) (by decide) (by decide) (by decide)⟩

/-- C10 counterexample: a chunk holding one complete frame with an unknown
opcode followed by a 4-byte partial frame.  Decoding the complete-frame
prefix fails (`onDecodeError` is emitted), yet the partial packet bytes are
still copied into the direction's residual buffer, so the residual is not
empty after the decoding error. -/
theorem C10_counterexample :
    (onDataChunk 1024 5 [0, 0, 0, 8, 0, 0, 0, 1, 127, 255, 255, 255, 0, 0, 0, 8]
        (zkInit [] [])).readResid = [0, 0, 0, 8] ∧
    (onDataChunk 1024 5 [0, 0, 0, 8, 0, 0, 0, 1, 127, 255, 255, 255, 0, 0, 0, 8]
        (zkInit [] [])).st.cbs = [CB.onDecodeError] := by
  constructor
  · rfl
  · rfl

/-- C10 amended: a pre-scan failure leaves the direction's residual buffer
empty (the drained residual is not copied back) and reports the decode
error; and when the combined stream ends exactly at a frame boundary, the
residual is also left empty whatever errors message decoding hits.  Only
when the combined stream ends with a partial packet does the partial
survive into the residual, even if decoding the complete-frame prefix
failed. -/
theorem C10_amended_residual_after_error (cfg : Nat) (r chunk : List Nat)
    (dt : DecodeType) (t : Nat) (s : St) :
    (∀ msg s', preScanLoop cfg (r ++ chunk) (if dt = .READ then 8 else 16)
        ((r ++ chunk).length + 1) 0 0 false s = .error (msg, s') →
      decodeAndBuffer cfg chunk dt t r s
        = ([], { s' with cbs := s'.cbs ++ [CB.onDecodeError] })) ∧
    (∀ off ll hf s', preScanLoop cfg (r ++ chunk) (if dt = .READ then 8 else 16)
        ((r ++ chunk).length + 1) 0 0 false s = .ok ((off, ll, hf), s') →
      off = (r ++ chunk).length →
      decodeAndBuffer cfg chunk dt t r s = ([], decodeRun cfg (r ++ chunk) dt t s')) := by
  constructor
  · intro msg s' h
    unfold decodeAndBuffer
    by_cases hr : r.length = 0
    · have hrnil : r = [] := List.length_eq_zero.mp hr
      subst hrnil
      simp only [List.nil_append] at h
      simp [decodeAndBufferHelper, h]
    · rw [if_neg hr]
      rw [List.length_append] at h
      simp [decodeAndBufferHelper, h]
  · intro off ll hf s' h hoff
    unfold decodeAndBuffer
    by_cases hr : r.length = 0
    · have hrnil : r = [] := List.length_eq_zero.mp hr
      subst hrnil
      simp only [List.nil_append] at h hoff ⊢
      simp [decodeAndBufferHelper, h, hoff]
    · rw [if_neg hr]
      rw [List.length_append] at h hoff
      simp [decodeAndBufferHelper, h, hoff]

/-- Witness for C10 amended: a 4-byte chunk whose declared length 0 fails
the pre-scan minimum; the residual stays empty. -/
theorem C10_amended_residual_after_error_witness :
    (preScanLoop 1024 ([] ++ [0, 0, 0, 0])
        (if DecodeType.READ = DecodeType.READ then 8 else 16)
        (([] ++ [0, 0, 0, 0]).length + 1) 0 0 false { cur := 0, reqs := [], cbs := [] }
      = .error ("Packet is too small", { cur := 4, reqs := [], cbs := [] })) ∧
    decodeAndBuffer 1024 [0, 0, 0, 0] .READ 5 [] { cur := 0, reqs := [], cbs := [] }
      = ([], { cur := 4, reqs := [], cbs := [CB.onDecodeError] }) :=
  ⟨rfl, by
    have h := (C10_amended_residual_after_error 1024 [] [0, 0, 0, 0] .READ 5
      { cur := 0, reqs := [], cbs := [] }).1 "Packet is too small"
      { cur := 4, reqs := [], cbs := [] } rfl
    simpa using h⟩

theorem toSigned32_of_lt (v : Nat) (h : v < 2147483648) : toSigned32 v = v := by
  simp [toSigned32, h]

theorem msgsBytes_append (a b : List GMsg) :
    msgsBytes (a ++ b) = msgsBytes a ++ msgsBytes b := by
  induction a with
  | nil => rfl
  | cons g t ih => simp [msgsBytes, ih]

theorem cbsOf_append (a b : List GMsg) : cbsOf (a ++ b) = cbsOf a ++ cbsOf b := by
  induction a with
  | nil => rfl
  | cons g t ih => simp [cbsOf, ih]

theorem msgsBytes_length_ge (cfg : Nat) (msgs : List GMsg)
    (h : ∀ g ∈ msgs, GoodReqMsg cfg g) :
    12 * msgs.length ≤ (msgsBytes msgs).length := by
  induction msgs with
  | nil => simp [msgsBytes]
  | cons g t ih =>
    have hg := h g (List.mem_cons_self g t)
    have ht := ih (fun g' hg' => h g' (List.mem_cons_of_mem g hg'))
    simp only [msgsBytes, List.length_append, List.length_cons]
    have h1 : g.bytes.length = g.L + 4 := hg.1
    have h2 : 8 ≤ g.L := hg.2.1
    omega

theorem byteAt_take (l : List Nat) (n i : Nat) (h : i < n) :
    byteAt (l.take n) i = byteAt l i := by
  unfold byteAt
  rcases Nat.lt_or_ge i l.length with hi | hi
  · rw [List.getD_eq_getElem l 0 hi, List.getD_eq_getElem _ 0 (by simp; omega)]
    simp [List.getElem_take]
  · rw [List.getD_eq_default _ _ (by simp; omega), List.getD_eq_default _ _ hi]

theorem be32_take (l : List Nat) (n : Nat) (h : 4 ≤ n) :
    be32 (l.take n) 0 = be32 l 0 := by
  unfold be32
  rw [byteAt_take l n 0 (by omega), byteAt_take l n 1 (by omega),
    byteAt_take l n 2 (by omega), byteAt_take l n 3 (by omega)]

/-- The pre-scan loop, once it has walked past the end of the buffer,
returns its accumulated offset, last length and full-packet flag. -/
theorem preScanLoop_done (cfg : Nat) (buf : List Nat) (minLen : Int) (fuel off ll : Nat)
    (hf : Bool) (s : St) (h : ¬off < buf.length) :
    preScanLoop cfg buf minLen fuel off ll hf s = .ok ((off, ll, hf), s) := by
  cases fuel <;> simp [preScanLoop, h, pure_apply]

/-- Stepping lemma: the pre-scan loop walks over a block of well-formed
frames, advancing the offset by their total length, charging 4 cursor
bytes per frame, recording the last frame length, and turning the
full-packet flag on. -/
theorem preScanLoop_frames (cfg : Nat) (msgs : List GMsg) :
    ∀ A tail buf fuel ll s, ∀ hf : Bool,
      buf = A ++ (msgsBytes msgs ++ tail) →
      (∀ g ∈ msgs, GoodReqMsg cfg g) →
      cfg < 2147483648 →
      msgs.length ≤ fuel →
      s.cur + 4 * msgs.length ≤ cfg →
      preScanLoop cfg buf 8 fuel A.length ll hf s
        = preScanLoop cfg buf 8 (fuel - msgs.length) (A.length + (msgsBytes msgs).length)
            (lastL msgs ll) (hf || !msgs.isEmpty) { s with cur := s.cur + 4 * msgs.length } := by
  induction msgs with
  | nil =>
    intro A tail buf fuel ll s hf hbuf hgood hcfg hfuel hcur
    simp [msgsBytes, lastL]
  | cons g t ih =>
    intro A tail buf fuel ll s hf hbuf hgood hcfg hfuel hcur
    have hg := hgood g (List.mem_cons_self g t)
    obtain ⟨hglen, hgL8, hgLc, hgbe, _⟩ := hg
    cases fuel with
    | zero => simp at hfuel
    | succ f =>
      simp only [List.length_cons] at hfuel hcur
      have hblen : buf.length = A.length + (g.bytes.length + ((msgsBytes t).length + tail.length)) := by
        simp [hbuf, msgsBytes]
      have hlt : A.length < buf.length := by
        rw [hblen]
        omega
      have e0 : toSigned32 (be32 buf A.length) = (g.L : Int) := by
        have h1 : be32 buf A.length = be32 (g.bytes ++ (msgsBytes t ++ tail)) 0 := by
          have h := be32_append_right A (g.bytes ++ (msgsBytes t ++ tail)) 0
          simp only [Nat.add_zero] at h
          rw [hbuf]
          simp only [msgsBytes, List.append_assoc]
          exact h
        have h2 : be32 (g.bytes ++ (msgsBytes t ++ tail)) 0 = be32 g.bytes 0 :=
          be32_append_left _ _ 0 (by omega)
        rw [h1, h2, hgbe, toSigned32_of_lt g.L (by omega)]
      rw [preScanLoop]
      rw [if_pos hlt]
      simp only [bind_apply,
        peekInt32_ok cfg buf A.length s (by omega) (by rw [hblen]; omega), e0]
      simp only [bind_apply, pure_apply,
        ensureMinLength_ok (g.L : Int) 8 _ (by exact_mod_cast hgL8),
        ensureMaxLength_ok cfg (g.L : Int) _
          (by rw [toU32_eq_toNat _ (by omega) (by omega)]; omega)]
      simp only [Int.toNat_natCast]
      have hfull : (A.length + 4 + g.L ≤ buf.length) := by
        rw [hblen]
        omega
      rw [decide_eq_true hfull, Bool.or_true]
      have harr : A.length + 4 + g.L = (A ++ g.bytes).length := by
        simp [hglen]
        omega
      have hbuf' : buf = (A ++ g.bytes) ++ (msgsBytes t ++ tail) := by
        simp [hbuf, msgsBytes]
      rw [harr]
      rw [ih (A ++ g.bytes) tail buf f g.L { s with cur := s.cur + 4 } true hbuf'
        (fun g' hg' => hgood g' (List.mem_cons_of_mem g hg')) hcfg (by omega)
        (by simp; omega)]
      have hfu : f - t.length = f + 1 - (t.length + 1) := by omega
      have hoff : (A ++ g.bytes).length + (msgsBytes t).length
          = A.length + (msgsBytes (g :: t)).length := by
        simp [msgsBytes]
        omega
      have hcur2 : s.cur + 4 + 4 * t.length = s.cur + 4 * (t.length + 1) := by omega
      rw [hfu, hoff]
      simp only [List.length_cons, lastL, List.isEmpty_cons, Bool.not_false, Bool.or_true,
        Bool.true_or]
      rw [show ({ s with cur := s.cur + 4 } : St).cur + 4 * t.length
          = s.cur + 4 * (t.length + 1) from by simp; omega]

/-- The message loop of `decode` over a block of well-formed request
messages: it consumes them all, emitting each message's callbacks followed
by its `onRequestBytes`, and ends with the internal cursor bounded by the
last frame size (or untouched when the block is empty). -/
theorem decodeLoop_frames (cfg Lmax : Nat) (msgs : List GMsg) :
    ∀ A buf fuel t s,
      buf = A ++ msgsBytes msgs →
      (∀ g ∈ msgs, GoodReqMsg cfg g) →
      (∀ g ∈ msgs, g.L ≤ Lmax) →
      msgs.length ≤ fuel →
      ∃ c' r', decodeLoop cfg buf .READ t fuel A.length s
          = .ok ((), { cur := c', reqs := r', cbs := s.cbs ++ cbsOf msgs })
        ∧ ((c' = s.cur ∧ r' = s.reqs ∧ msgs = []) ∨ c' ≤ Lmax + 4) := by
  induction msgs with
  | nil =>
    intro A buf fuel t s hbuf hgood hLmax hfuel
    refine ⟨s.cur, s.reqs, ?_, Or.inl ⟨rfl, rfl, rfl⟩⟩
    have hend : ¬A.length < buf.length := by
      simp [hbuf, msgsBytes]
    cases fuel with
    | zero =>
      simp [decodeLoop, cbsOf, pure_apply]
    | succ f =>
      rw [decodeLoop, if_neg hend]
      simp [cbsOf, pure_apply]
  | cons g t ih =>
    intro A buf fuel tm s hbuf hgood hLmax hfuel
    have hg := hgood g (List.mem_cons_self g t)
    obtain ⟨hglen, hgL8, hgLc, hgbe, hgdec⟩ := hg
    cases fuel with
    | zero => simp at hfuel
    | succ f =>
      simp only [List.length_cons] at hfuel
      have hblen : buf.length = A.length + (g.bytes.length + (msgsBytes t).length) := by
        simp [hbuf, msgsBytes]
      have hlt : A.length < buf.length := by
        rw [hblen]
        omega
      obtain ⟨c2, rq2, hc2, hdec⟩ := hgdec A (msgsBytes t) tm { s with cur := 0 } rfl
      have hbufg : buf = A ++ (g.bytes ++ msgsBytes t) := by
        simp [hbuf, msgsBytes]
      rw [← hbufg] at hdec
      rw [decodeLoop, if_pos hlt]
      simp only [bind_apply, hReset_apply, hdec, emit_apply, Nat.add_sub_cancel_left]
      have harr : A.length + (g.L + 4) = (A ++ g.bytes).length := by
        simp [hglen]
      have hbuf2 : buf = (A ++ g.bytes) ++ msgsBytes t := by
        simp [hbufg]
      obtain ⟨c3, r3, heq2, hdisj2⟩ := ih (A ++ g.bytes) buf f tm
        { cur := c2, reqs := rq2,
          cbs := s.cbs ++ g.cs ++ [CB.onRequestBytes (g.L + 4)] }
        hbuf2 (fun g' hg' => hgood g' (List.mem_cons_of_mem g hg'))
        (fun g' hg' => hLmax g' (List.mem_cons_of_mem g hg')) (by omega)
      rw [harr]
      refine ⟨c3, r3, ?_, ?_⟩
      · rw [heq2]
        simp [cbsOf]
      · rcases hdisj2 with ⟨hc3, _, _⟩ | hc3
        · right
          have : g.L ≤ Lmax := hLmax g (List.mem_cons_self g t)
          simp at hc3
          omega
        · right
          exact hc3

/-- `decodeAndBufferHelper` on a stream of well-formed request frames
followed by an optional partial frame (empty, or at least its 4-byte
length prefix with in-range declared length): all complete frames are
decoded in order, the partial bytes become the new residual, and the
cursor stays within the stated budget. -/
theorem helper_frames (cfg Lmax : Nat) (msgs : List GMsg) (part : List Nat) (t : Nat)
    (s : St)
    (hcfg : cfg < 2147483648)
    (hgood : ∀ g ∈ msgs, GoodReqMsg cfg g)
    (hLmax : ∀ g ∈ msgs, g.L ≤ Lmax)
    (hpart : part = [] ∨ (4 ≤ part.length ∧ ∃ Lp : Nat, be32 part 0 = Lp ∧ 8 ≤ Lp ∧
      Lp ≤ cfg ∧ part.length < Lp + 4))
    (hcur : s.cur + 4 * (msgs.length + 1) ≤ cfg) :
    ∃ c' r', decodeAndBufferHelper cfg (msgsBytes msgs ++ part) .READ t s
        = (part, { cur := c', reqs := r', cbs := s.cbs ++ cbsOf msgs })
      ∧ (c' ≤ s.cur + 4 * (msgs.length + 1) ∨ c' ≤ Lmax + 4) := by
  set buf := msgsBytes msgs ++ part with hbuf
  have hbuf0 : buf = [] ++ (msgsBytes msgs ++ part) := by simp [hbuf]
  have h12 := msgsBytes_length_ge cfg msgs hgood
  have hblen : buf.length = (msgsBytes msgs).length + part.length := by
    simp [hbuf]
  have hfuel : msgs.length ≤ buf.length + 1 := by omega
  have hstep := preScanLoop_frames cfg msgs [] part buf (buf.length + 1) 0 s false hbuf0
    hgood hcfg hfuel (by omega)
  simp only [List.length_nil, Nat.zero_add] at hstep
  unfold decodeAndBufferHelper
  simp only [reduceIte]
  rw [hstep]
  rcases hpart with hpnil | ⟨hp4, Lp, hbe, hLp8, hLpc, hplt⟩
  · subst hpnil
    have hpl : (msgsBytes msgs).length = buf.length := by
      simp [hbuf]
    rw [hpl, preScanLoop_done cfg buf 8 _ buf.length _ _ _ (by omega)]
    simp only [if_pos rfl]
    unfold decodeRun
    have hbufm : buf = [] ++ msgsBytes msgs := by
      simp [hbuf]
    obtain ⟨c', r', heq, hdisj⟩ := decodeLoop_frames cfg Lmax msgs [] buf (buf.length + 1) t
      { s with cur := s.cur + 4 * msgs.length } hbufm hgood hLmax (by omega)
    simp only [List.length_nil] at heq
    rw [heq]
    refine ⟨c', r', by simp, ?_⟩
    rcases hdisj with ⟨hc, _, _⟩ | hc
    · left
      simp at hc
      omega
    · right
      exact hc
  · have hlt2 : (msgsBytes msgs).length < buf.length := by omega
    obtain ⟨f', hf'⟩ : ∃ f', buf.length + 1 - msgs.length = f' + 1 :=
      ⟨buf.length - msgs.length, by omega⟩
    rw [hf', preScanLoop]
    rw [if_pos hlt2]
    have ep : toSigned32 (be32 buf (msgsBytes msgs).length) = (Lp : Int) := by
      have h := be32_append_right (msgsBytes msgs) part 0
      simp only [Nat.add_zero] at h
      rw [hbuf, h, hbe, toSigned32_of_lt Lp (by omega)]
    simp only [bind_apply,
      peekInt32_ok cfg buf (msgsBytes msgs).length { s with cur := s.cur + 4 * msgs.length }
        (by simp; omega) (by omega), ep]
    simp only [bind_apply, pure_apply,
      ensureMinLength_ok (Lp : Int) 8 _ (by exact_mod_cast hLp8),
      ensureMaxLength_ok cfg (Lp : Int) _
        (by rw [toU32_eq_toNat _ (by omega) (by omega)]; omega)]
    simp only [Int.toNat_natCast]
    rw [decide_eq_false (by omega : ¬(msgsBytes msgs).length + 4 + Lp ≤ buf.length)]
    rw [Bool.or_false,
      preScanLoop_done cfg buf 8 f' ((msgsBytes msgs).length + 4 + Lp) Lp _ _ (by omega)]
    simp only [if_neg (by omega : ¬(msgsBytes msgs).length + 4 + Lp = buf.length)]
    by_cases hm : msgs = []
    · subst hm
      simp only [List.isEmpty_nil, Bool.not_true, Bool.false_or, Bool.or_false]
      refine ⟨s.cur + 4 * 0 + 4, s.reqs, ?_, Or.inl (by omega)⟩
      simp [hbuf, msgsBytes, cbsOf]
    · have hie : msgs.isEmpty = false := by
        cases msgs with
        | nil => exact absurd rfl hm
        | cons a b => rfl
      rw [hie]
      simp only [Bool.not_false, Bool.false_or, if_true]
      rw [show (msgsBytes msgs).length + 4 + Lp - (4 + Lp) = (msgsBytes msgs).length from
        by omega]
      rw [hbuf, List.drop_left, List.take_left]
      unfold decodeRun
      have hbufm : msgsBytes msgs = [] ++ msgsBytes msgs := by simp
      obtain ⟨c', r', heq, hdisj⟩ := decodeLoop_frames cfg Lmax msgs [] (msgsBytes msgs)
        ((msgsBytes msgs).length + 1) t
        { s with cur := s.cur + 4 * msgs.length + 4 } hbufm hgood hLmax (by omega)
      simp only [List.length_nil] at heq
      rw [heq]
      refine ⟨c', r', by simp, ?_⟩
      rcases hdisj with ⟨_, _, hmnil⟩ | hc
      · exact absurd hmnil hm
      · right
        exact hc

/-- C1 amended: for a stream of well-formed request frames, splitting the
byte stream into two chunks yields exactly the callbacks of feeding the
stream whole, provided the split point either falls on a frame boundary or
leaves at least the 4-byte length prefix of the trailing partial frame in
the first chunk, and the configured `max_packet_bytes` leaves room for the
helper cursor's cumulative pre-scan charges (`8·(#frames) + Lmax + 8 ≤
max_packet_bytes`).  A split inside a length prefix is reported as a decode
error instead (see the counterexample), so the claim holds only under this
restriction. -/
theorem C1_amended_split_reassembly (cfg Lmax t : Nat) (msgs : List GMsg) (j : Nat)
    (part : List Nat) (r0 : List (Int × Int × Nat)) (c0 : List CB)
    (hcfg : cfg < 2147483648)
    (hgood : ∀ g ∈ msgs, GoodReqMsg cfg g)
    (hLmax : ∀ g ∈ msgs, g.L ≤ Lmax)
    (hbudget : 8 * msgs.length + Lmax + 8 ≤ cfg)
    (hpart : part = [] ∨ ∃ g rest2, msgs.drop j = g :: rest2 ∧
      part = g.bytes.take part.length ∧ 4 ≤ part.length ∧ part.length < g.L + 4) :
    (feedRead cfg t [msgsBytes (msgs.take j) ++ part,
        (msgsBytes msgs).drop (msgsBytes (msgs.take j) ++ part).length]
      (zkInit r0 c0)).st.cbs
      = (feedRead cfg t [msgsBytes msgs] (zkInit r0 c0)).st.cbs := by
  have htd : msgs.take j ++ msgs.drop j = msgs := List.take_append_drop j msgs
  have hSsplit : msgsBytes msgs = msgsBytes (msgs.take j) ++ msgsBytes (msgs.drop j) := by
    conv_lhs => rw [← htd]
    rw [msgsBytes_append]
  have hgood1 : ∀ g ∈ msgs.take j, GoodReqMsg cfg g :=
    fun g hg => hgood g (List.take_subset j msgs hg)
  have hgood2 : ∀ g ∈ msgs.drop j, GoodReqMsg cfg g :=
    fun g hg => hgood g (List.drop_subset j msgs hg)
  have hLmax1 : ∀ g ∈ msgs.take j, g.L ≤ Lmax :=
    fun g hg => hLmax g (List.take_subset j msgs hg)
  have hLmax2 : ∀ g ∈ msgs.drop j, g.L ≤ Lmax :=
    fun g hg => hLmax g (List.drop_subset j msgs hg)
  have hlt : (msgs.take j).length ≤ msgs.length := by
    simp [List.length_take]
  have hld : (msgs.drop j).length ≤ msgs.length := by
    simp
  obtain ⟨cF, rF, heqF, _⟩ := helper_frames cfg Lmax msgs [] t
    { cur := 0, reqs := r0, cbs := c0 } hcfg hgood hLmax (Or.inl rfl)
    (by show 0 + 4 * (msgs.length + 1) ≤ cfg; omega)
  simp only [List.append_nil] at heqF
  have hfull : feedRead cfg t [msgsBytes msgs] (zkInit r0 c0)
      = { st := { cur := cF, reqs := rF, cbs := c0 ++ cbsOf msgs },
          readResid := [], writeResid := [] } := by
    simp only [feedRead, List.foldl_cons, List.foldl_nil]
    unfold onDataChunk decodeAndBuffer zkInit
    simp [heqF]
  rw [hfull]
  rcases hpart with hpnil | ⟨g, rest2, hdropeq, hptake, hp4, hplt⟩
  · subst hpnil
    obtain ⟨cA, rA, heqA, hdisjA⟩ := helper_frames cfg Lmax (msgs.take j) [] t
      { cur := 0, reqs := r0, cbs := c0 } hcfg hgood1 hLmax1 (Or.inl rfl)
      (by show 0 + 4 * ((msgs.take j).length + 1) ≤ cfg; omega)
    simp only [List.append_nil] at heqA
    have hsplitA : feedRead cfg t [msgsBytes (msgs.take j) ++ [],
        (msgsBytes msgs).drop (msgsBytes (msgs.take j) ++ []).length] (zkInit r0 c0)
        = feedRead cfg t [(msgsBytes msgs).drop (msgsBytes (msgs.take j)).length]
            { st := { cur := cA, reqs := rA, cbs := c0 ++ cbsOf (msgs.take j) },
              readResid := [], writeResid := [] } := by
      simp only [feedRead, List.foldl_cons, List.foldl_nil, List.append_nil]
      unfold onDataChunk decodeAndBuffer zkInit
      simp [heqA]
    rw [hsplitA]
    have hdropB : (msgsBytes msgs).drop (msgsBytes (msgs.take j)).length
        = msgsBytes (msgs.drop j) := by
      rw [hSsplit, List.drop_left]
    rw [hdropB]
    obtain ⟨cB, rB, heqB, _⟩ := helper_frames cfg Lmax (msgs.drop j) [] t
      { cur := cA, reqs := rA, cbs := c0 ++ cbsOf (msgs.take j) } hcfg hgood2 hLmax2
      (Or.inl rfl)
      (by
        show cA + 4 * ((msgs.drop j).length + 1) ≤ cfg
        rcases hdisjA with h | h
        · have h2 : cA ≤ 0 + 4 * ((msgs.take j).length + 1) := h
          omega
        · omega)
    simp only [List.append_nil] at heqB
    have hsplitB : feedRead cfg t [msgsBytes (msgs.drop j)]
        { st := { cur := cA, reqs := rA, cbs := c0 ++ cbsOf (msgs.take j) },
          readResid := [], writeResid := [] }
        = { st := { cur := cB, reqs := rB,
                    cbs := (c0 ++ cbsOf (msgs.take j)) ++ cbsOf (msgs.drop j) },
            readResid := [], writeResid := [] } := by
      simp only [feedRead, List.foldl_cons, List.foldl_nil]
      unfold onDataChunk decodeAndBuffer
      simp [heqB]
    rw [hsplitB]
    simp only [List.append_assoc]
    rw [← cbsOf_append, htd]
  · have hgmem : g ∈ msgs := List.drop_subset j msgs (hdropeq ▸ List.mem_cons_self g rest2)
    obtain ⟨hglen, hgL8, hgLc, hgbe, _⟩ := hgood g hgmem
    have hbe : be32 part 0 = g.L := by
      rw [hptake, be32_take g.bytes part.length hp4, hgbe]
    obtain ⟨cA, rA, heqA, hdisjA⟩ := helper_frames cfg Lmax (msgs.take j) part t
      { cur := 0, reqs := r0, cbs := c0 } hcfg hgood1 hLmax1
      (Or.inr ⟨hp4, g.L, hbe, hgL8, hgLc, hplt⟩)
      (by show 0 + 4 * ((msgs.take j).length + 1) ≤ cfg; omega)
    have hsplitA : feedRead cfg t [msgsBytes (msgs.take j) ++ part,
        (msgsBytes msgs).drop (msgsBytes (msgs.take j) ++ part).length] (zkInit r0 c0)
        = feedRead cfg t
            [(msgsBytes msgs).drop (msgsBytes (msgs.take j) ++ part).length]
            { st := { cur := cA, reqs := rA, cbs := c0 ++ cbsOf (msgs.take j) },
              readResid := part, writeResid := [] } := by
      simp only [feedRead, List.foldl_cons, List.foldl_nil]
      unfold onDataChunk decodeAndBuffer zkInit
      simp [heqA]
    rw [hsplitA]
    have hdropped : msgsBytes (msgs.drop j) = g.bytes ++ msgsBytes rest2 := by
      rw [hdropeq]
      rfl
    have hdropB : (msgsBytes msgs).drop (msgsBytes (msgs.take j) ++ part).length
        = g.bytes.drop part.length ++ msgsBytes rest2 := by
      rw [hSsplit, List.length_append]
      rw [← List.drop_drop, List.drop_left, hdropped,
        List.drop_append_of_le_length (by omega)]
    rw [hdropB]
    have hpartB : part ++ (g.bytes.drop part.length ++ msgsBytes rest2)
        = msgsBytes (msgs.drop j) := by
      set p := part.length with hp
      rw [hdropped, ← List.append_assoc, hptake, List.take_append_drop]
    obtain ⟨cB, rB, heqB, _⟩ := helper_frames cfg Lmax (msgs.drop j) [] t
      { cur := cA, reqs := rA, cbs := c0 ++ cbsOf (msgs.take j) } hcfg hgood2 hLmax2
      (Or.inl rfl)
      (by
        show cA + 4 * ((msgs.drop j).length + 1) ≤ cfg
        rcases hdisjA with h | h
        · have h2 : cA ≤ 0 + 4 * ((msgs.take j).length + 1) := h
          omega
        · omega)
    simp only [List.append_nil] at heqB
    have hsplitB : feedRead cfg t [g.bytes.drop part.length ++ msgsBytes rest2]
        { st := { cur := cA, reqs := rA, cbs := c0 ++ cbsOf (msgs.take j) },
          readResid := part, writeResid := [] }
        = { st := { cur := cB, reqs := rB,
                    cbs := (c0 ++ cbsOf (msgs.take j)) ++ cbsOf (msgs.drop j) },
            readResid := [], writeResid := [] } := by
      simp only [feedRead, List.foldl_cons, List.foldl_nil]
      unfold onDataChunk decodeAndBuffer
      rw [if_neg (by omega : ¬part.length = 0), hpartB]
      simp [heqB]
    rw [hsplitB]
    simp only [List.append_assoc]
    rw [← cbsOf_append, htd]

/-- C1 counterexample: two well-formed 12-byte Ping requests fed whole
emit two `onPing` callbacks, but split into chunks of 2 and 22 bytes (the
split inside the first length prefix) the pre-scan's length peek underflows
and the Reassembler reports a decode error instead, so the callback
sequences differ. -/
theorem C1_counterexample :
    (feedRead 1024 5 [[0, 0], [0, 8, 255, 255, 255, 254, 255, 255, 255, 254,
        0, 0, 0, 8, 255, 255, 255, 254, 255, 255, 255, 254]] (zkInit [] [])).st.cbs
      ≠ (feedRead 1024 5 [[0, 0, 0, 8, 255, 255, 255, 254, 255, 255, 255, 254,
        0, 0, 0, 8, 255, 255, 255, 254, 255, 255, 255, 254]] (zkInit [] [])).st.cbs := by
  decide

/-- A 12-byte Ping request frame is a well-formed request message emitting
exactly `onPing`. -/
theorem goodReqMsg_ping (cfg : Nat) (hcfg : 12 ≤ cfg) :
    GoodReqMsg cfg ⟨8, [0, 0, 0, 8, 255, 255, 255, 254, 0, 0, 0, 0], [CB.onPing]⟩ := by
  refine ⟨rfl, by decide, by show (8 : Nat) ≤ cfg; omega, by decide, ?_⟩
  intro pre suf t s hcur
  refine ⟨8, mapSet s.reqs (-2) OpCodes.Ping t, by decide, ?_⟩
  set mb : List Nat := [0, 0, 0, 8, 255, 255, 255, 254, 0, 0, 0, 0] with hmb
  set buf := pre ++ (mb ++ suf) with hbuf
  have hblen : buf.length = pre.length + (12 + suf.length) := by
    simp [hbuf, hmb]
    omega
  have e0 : toSigned32 (be32 buf pre.length) = 8 := by
    have h := be32_append_right pre (mb ++ suf) 0
    simp only [Nat.add_zero] at h
    rw [hbuf, h, be32_append_left mb suf 0 (by decide)]
    decide
  have e4 : toSigned32 (be32 buf (pre.length + 4)) = -2 := by
    have h := be32_append_right pre (mb ++ suf) 4
    rw [hbuf, h, be32_append_left mb suf 4 (by decide)]
    decide
  simp only [decodeOnData, bind_apply,
    peekInt32_ok cfg buf pre.length s (by omega) (by omega), e0]
  simp only [bind_apply, pure_apply,
    ensureMinLength_ok 8 8 _ (by omega),
    ensureMaxLength_ok cfg 8 _ (by simp only [toU32]; omega)]
  simp only [bind_apply,
    peekInt32_ok cfg buf (pre.length + 4) { s with cur := s.cur + 4 } (by simp; omega)
      (by omega), e4]
  norm_num
  simp only [bind_apply, emit_apply, recordReq_apply, pure_apply, hcur]

/-- Witness for C1 amended: two Ping frames split after the first 4 bytes
(the length prefix of the first frame), by the general theorem. -/
theorem C1_amended_split_reassembly_witness :
    (8 * ([(⟨8, [0, 0, 0, 8, 255, 255, 255, 254, 0, 0, 0, 0], [CB.onPing]⟩ : GMsg),
        ⟨8, [0, 0, 0, 8, 255, 255, 255, 254, 0, 0, 0, 0], [CB.onPing]⟩] : List GMsg).length
      + 8 + 8 ≤ 1024) ∧
    (feedRead 1024 5 [msgsBytes (([(⟨8, [0, 0, 0, 8, 255, 255, 255, 254, 0, 0, 0, 0],
          [CB.onPing]⟩ : GMsg), ⟨8, [0, 0, 0, 8, 255, 255, 255, 254, 0, 0, 0, 0],
          [CB.onPing]⟩] : List GMsg).take 0) ++ [0, 0, 0, 8],
        (msgsBytes [(⟨8, [0, 0, 0, 8, 255, 255, 255, 254, 0, 0, 0, 0], [CB.onPing]⟩ : GMsg),
          ⟨8, [0, 0, 0, 8, 255, 255, 255, 254, 0, 0, 0, 0], [CB.onPing]⟩]).drop
          (msgsBytes (([(⟨8, [0, 0, 0, 8, 255, 255, 255, 254, 0, 0, 0, 0],
            [CB.onPing]⟩ : GMsg), ⟨8, [0, 0, 0, 8, 255, 255, 255, 254, 0, 0, 0, 0],
            [CB.onPing]⟩] : List GMsg).take 0) ++ [0, 0, 0, 8]).length]
      (zkInit [] [])).st.cbs
      = (feedRead 1024 5 [msgsBytes [(⟨8, [0, 0, 0, 8, 255, 255, 255, 254, 0, 0, 0, 0],
          [CB.onPing]⟩ : GMsg), ⟨8, [0, 0, 0, 8, 255, 255, 255, 254, 0, 0, 0, 0],
          [CB.onPing]⟩]] (zkInit [] [])).st.cbs :=
  ⟨by decide,
    C1_amended_split_reassembly 1024 8 5
      [⟨8, [0, 0, 0, 8, 255, 255, 255, 254, 0, 0, 0, 0], [CB.onPing]⟩,
        ⟨8, [0, 0, 0, 8, 255, 255, 255, 254, 0, 0, 0, 0], [CB.onPing]⟩] 0 [0, 0, 0, 8] [] []
      (by decide)
      (fun g hg => by
        rcases List.mem_cons.mp hg with h | h
        · subst h
          exact goodReqMsg_ping 1024 (by decide)
        · rcases List.mem_cons.mp h with h2 | h2
          · subst h2
            exact goodReqMsg_ping 1024 (by decide)
          · simp at h2)
      (fun g hg => by
        rcases List.mem_cons.mp hg with h | h
        · subst h
          decide
        · rcases List.mem_cons.mp h with h2 | h2
          · subst h2
            decide
          · simp at h2)
      (by decide)
      (Or.inr ⟨⟨8, [0, 0, 0, 8, 255, 255, 255, 254, 0, 0, 0, 0], [CB.onPing]⟩,
        [⟨8, [0, 0, 0, 8, 255, 255, 255, 254, 0, 0, 0, 0], [CB.onPing]⟩],
        rfl, by decide, by decide, by decide⟩)⟩

end ZooKeeperProxy

